import Mathlib

/-! Binding-callback dispatch bridge of neuik-go

A shallow embedding of `neuik/neuik_Callback.go`, of `Init` from
`neuik/neuik.go`, of `Element_SetCallback` from `neuik/neuik_Element.go` and
of `Window.SetCallback` from `neuik/neuik_Window.go`.

* `C.uint` is a 32-bit unsigned integer: values are `Nat`, and `+= 1` on a
  `C.uint` is taken modulo `UINT_MOD = 2^32`.
* A buffered Go channel is the list of its buffered items, oldest first.  A
  send on a full channel and a receive on an empty channel block; a blocked
  operation is `none`.
* `GetUniqueCallbackBindID` (receive, acknowledge, decrement) and one pass
  through a `case` of the `select` loop are atomic steps.
* A Go `panic` that nobody recovers is `Except.error`.
* A handler is arbitrary application code: besides changing the application
  state it may write to the argument slice it is passed and call
  `RegisterBindingCallback`; what it did is its `HandlerEffect`.  What a
  handler did before it panicked is not recorded, the panic ends the process.
-/

namespace Neuik

/-! ## Machine integers and channels -/

/-- Number of values of the cgo type `C.uint` (a Go `uint32`). -/
def UINT_MOD : Nat := 4294967296

/-- Buffer size given to `make(chan ..., 20)` in `StartCallbackHandler`. -/
def CHAN_CAP : Nat := 20

/-- Upper bound of the preload loop `for bindCtr = 0; bindCtr < 5; ...`. -/
def PRELOAD : Nat := 5

/-- Send `ch <- x` on a channel with buffer size `cap`: the item is queued
behind the buffered ones; on a full buffer the send blocks. -/
def chanSend {α : Type} (cap : Nat) (buf : List α) (x : α) : Option (List α) :=
  if buf.length < cap then some (buf ++ [x]) else none

/-- Receive `<-ch`: the oldest buffered item is taken; on an empty buffer the
receive blocks. -/
def chanRecv {α : Type} : List α → Option (α × List α)
  | [] => none
  | x :: rest => some (x, rest)

/-! ## The identifier pool -/

/-- The variables of `neuik_Callback.go` that make up the identifier pool:
the loop-local counter `bindCtr` and the globals `nBindIDsInChan`,
`chanNextBindID`, `chanBindIDRecv`. -/
structure Pool where
  bindCtr : Nat
  nBindIDsInChan : Int
  chanNextBindID : List Nat
  chanBindIDRecv : List Bool
  deriving DecidableEq, Repr

/-- The loop `for bindCtr = 0; bindCtr < 5; bindCtr += 1` of
`StartCallbackHandler`, entered with `bindCtr` already set; `fuel` bounds the
number of iterations. -/
def preloadLoop : Nat → Pool → Option Pool
  | 0, s => if s.bindCtr < PRELOAD then none else some s
  | fuel + 1, s =>
    if s.bindCtr < PRELOAD then
      match chanSend CHAN_CAP s.chanNextBindID s.bindCtr with
      | none => none
      | some q =>
        preloadLoop fuel
          { s with
            nBindIDsInChan := s.nBindIDsInChan + 1
            chanNextBindID := q
            bindCtr := (s.bindCtr + 1) % UINT_MOD }
    else some s

/-- The pool part of `StartCallbackHandler` up to the `select` loop: the two
channels are made afresh and five identifiers are placed on
`chanNextBindID`.  The global `nBindIDsInChan` is only incremented, so its
earlier value `n0` is an input. -/
def startPool (n0 : Int) : Option Pool :=
  preloadLoop PRELOAD
    { bindCtr := 0, nBindIDsInChan := n0, chanNextBindID := [], chanBindIDRecv := [] }

/-- The pool as `StartCallbackHandler` leaves it in a fresh process, where
the global `nBindIDsInChan` holds its zero value. -/
def initPool : Pool :=
  (startPool 0).getD
    { bindCtr := 0, nBindIDsInChan := 0, chanNextBindID := [], chanBindIDRecv := [] }

/-- The function `GetUniqueCallbackBindID` as one atomic step.  While
`nBindIDsInChan > 0` fails the caller sleeps and retries, so the step is not
enabled; otherwise it receives from `chanNextBindID`, sends `true` on
`chanBindIDRecv` and decrements `nBindIDsInChan`. -/
def GetUniqueCallbackBindID (s : Pool) : Option (Nat × Pool) :=
  if s.nBindIDsInChan > 0 then
    match chanRecv s.chanNextBindID with
    | none => none
    | some (bindID, rest) =>
      match chanSend CHAN_CAP s.chanBindIDRecv true with
      | none => none
      | some acks =>
        some (bindID,
          { s with
            chanNextBindID := rest
            chanBindIDRecv := acks
            nBindIDsInChan := s.nBindIDsInChan - 1 })
  else none

/-- The `case <-chanBindIDRecv:` branch of the `select` loop: one
acknowledgement is consumed, `bindCtr` is sent on `chanNextBindID`, and
`nBindIDsInChan` and `bindCtr` are incremented. -/
def refill (s : Pool) : Option Pool :=
  match chanRecv s.chanBindIDRecv with
  | none => none
  | some (_, acks) =>
    match chanSend CHAN_CAP s.chanNextBindID s.bindCtr with
    | none => none
    | some q =>
      some
        { chanBindIDRecv := acks
          chanNextBindID := q
          nBindIDsInChan := s.nBindIDsInChan + 1
          bindCtr := (s.bindCtr + 1) % UINT_MOD }

/-- The two kinds of step of the pool. -/
inductive PoolStep where
  | Claim
  | Refill
  deriving DecidableEq, Repr

/-- What an observer of the pool sees: an identifier returned by
`GetUniqueCallbackBindID`, or an identifier sent on `chanNextBindID` by the
loop. -/
inductive PoolObs where
  | returned (bindID : Nat)
  | pushed (bindID : Nat)
  deriving DecidableEq, Repr

/-- Run a schedule of steps from `s`, recording what is observed.  A schedule
that asks for a step which is not enabled is not an execution (`none`). -/
def runPool : List PoolStep → Pool → Option (List PoolObs × Pool)
  | [], s => some ([], s)
  | PoolStep.Claim :: rest, s =>
    match GetUniqueCallbackBindID s with
    | none => none
    | some (bindID, s1) =>
      match runPool rest s1 with
      | none => none
      | some (obs, s2) => some (PoolObs.returned bindID :: obs, s2)
  | PoolStep.Refill :: rest, s =>
    match refill s with
    | none => none
    | some s1 =>
      match runPool rest s1 with
      | none => none
      | some (obs, s2) => some (PoolObs.pushed s.bindCtr :: obs, s2)

/-- The identifiers returned to callers, in the order of the calls. -/
def returnedIDs : List PoolObs → List Nat
  | [] => []
  | PoolObs.returned i :: rest => i :: returnedIDs rest
  | PoolObs.pushed _ :: rest => returnedIDs rest

/-- The identifiers the loop sent on `chanNextBindID`, in order. -/
def pushedIDs : List PoolObs → List Nat
  | [] => []
  | PoolObs.returned _ :: rest => pushedIDs rest
  | PoolObs.pushed i :: rest => i :: pushedIDs rest

/-- A pool state is reachable when some schedule of Claim and Refill steps
leads to it from `initPool`, the state in which `StartCallbackHandler` enters
its loop, with the preload completed.  The states the preload itself passes
through are those of `preloadIncrement` and `preloadSend`. -/
def Reachable (s : Pool) : Prop :=
  ∃ sched obs, runPool sched initPool = some (obs, s)

/-- The schedule in which `k` callers in turn claim an identifier and the loop
refills after each claim. -/
def rounds : Nat → List PoolStep
  | 0 => []
  | k + 1 => PoolStep.Claim :: PoolStep.Refill :: rounds k

/-- Number of Claim steps of a schedule. -/
def nClaims (sched : List PoolStep) : Nat := sched.count PoolStep.Claim

/-- Number of Refill steps of a schedule. -/
def nRefills (sched : List PoolStep) : Nat := sched.count PoolStep.Refill

/-- After `c` claims and `r` refills the pool holds the identifiers
`c, ..., 4 + r` (reduced modulo `UINT_MOD`) in ascending order, `c - r`
acknowledgements are pending, and the counters agree with both. -/
structure PoolInv (c r : Nat) (s : Pool) : Prop where
  refills_le : r ≤ c
  claims_le : c ≤ r + 5
  ctr : s.bindCtr = (5 + r) % UINT_MOD
  cnt : s.nBindIDsInChan = (5 + r : Int) - c
  win : s.chanNextBindID = (List.range' c (5 + r - c)).map (fun i => i % UINT_MOD)
  acks : s.chanBindIDRecv = List.replicate (c - r) true

/-! ## The callback registry and the dispatch loop -/

/-- What a handler that returns has done.  `world` is the application state
it leaves.  `argWrites` are its assignments `a[i] = v` to the slice it was
passed, in order; that slice shares its array with the registry entry being
triggered.  `registers` are the calls of `RegisterBindingCallback` it made
(directly or through `Element_SetCallback` / `Window.SetCallback`), in order,
each with its identifier, function and argument list. -/
structure HandlerEffect (W V : Type) where
  world : W
  argWrites : List (Nat × V)
  registers : List (Nat × Option (List V → W → Option (HandlerEffect W V)) × List V)

/-- A non-nil Go value of type `func([]interface{})`.  `V` stands for the
values an `interface{}` can hold and `W` for the state of the application the
handler acts on; a call either returns, with the effect it had, or panics
(`none`). -/
abbrev Handler (W V : Type) : Type := List V → W → Option (HandlerEffect W V)

/-- The result of a handler that returns leaving the application state `w`,
having written nothing to its arguments and registered nothing. -/
def returning {W V : Type} (w : W) : Option (HandlerEffect W V) :=
  some { world := w, argWrites := [], registers := [] }

/-- The struct `callback`.  A `cbFunc` of `none` is the nil function. -/
structure callback (W V : Type) where
  isUsed : Bool
  cbFunc : Option (Handler W V)
  cbArgs : List V

/-- The zero value of `callback`, which a Go map lookup yields for a key that
has no entry. -/
def callback.zero (W V : Type) : callback W V :=
  { isUsed := false, cbFunc := none, cbArgs := [] }

/-- The run-time panics the dispatch code can raise. -/
inductive Panic where
  | nilFuncCall
  | nilMapWrite
  | handlerPanic
  deriving DecidableEq, Repr

/-- The variables of `neuik_Callback.go` the dispatch side works on: the map
`bindingCallbacks` (`none` is the nil map the variable holds until
`StartCallbackHandler` makes one), the channel `stackPop`, the global `bindID`,
together with the application state and the record `calls` of the handler
invocations made so far. -/
structure Dispatch (W V : Type) where
  bindingCallbacks : Option (Nat → Option (callback W V))
  stackPop : List Nat
  bindID : Nat
  world : W
  calls : List (Handler W V × List V)

/-- Outcome of a piece of dispatch code: the state it leaves, or a panic and
the state at the moment of the panic. -/
abbrev Outcome (W V : Type) : Type := Except (Panic × Dispatch W V) (Dispatch W V)

/-- The state an outcome carries. -/
def Outcome.state {W V : Type} : Outcome W V → Dispatch W V
  | Except.ok d => d
  | Except.error (_, d) => d

/-- The dispatch variables of a process in which `StartCallbackHandler` has
not run yet. -/
def freshDispatch {W : Type} (V : Type) (w : W) : Dispatch W V :=
  { bindingCallbacks := none, stackPop := [], bindID := 0, world := w, calls := [] }

/-- The dispatch part of `StartCallbackHandler` up to the `select` loop:
`bindingCallbacks` and `stackPop` are made afresh. -/
def startDispatch {W V : Type} (d : Dispatch W V) : Dispatch W V :=
  { d with bindingCallbacks := some (fun _ => none), stackPop := [] }

/-- The entry the registry holds for `bindID`, if any. -/
def entry {W V : Type} (d : Dispatch W V) (bindID : Nat) : Option (callback W V) :=
  match d.bindingCallbacks with
  | none => none
  | some m => m bindID

/-- The Go expression `bindingCallbacks[bindID]`: the entry, or the zero value
when there is none. -/
def lookup {W V : Type} (d : Dispatch W V) (bindID : Nat) : callback W V :=
  (entry d bindID).getD (callback.zero W V)

/-- The function `RegisterBindingCallback`: `bindingCallbacks[bindID] =
callback{true, cbFunc, cbArgs}`.  Assigning to an entry of a nil map
panics. -/
def RegisterBindingCallback {W V : Type} (bindID : Nat) (cbFunc : Option (Handler W V))
    (cbArgs : List V) (d : Dispatch W V) : Outcome W V :=
  match d.bindingCallbacks with
  | none => Except.error (Panic.nilMapWrite, d)
  | some m =>
    Except.ok
      { d with
        bindingCallbacks :=
          some (fun k => if k = bindID then some { isUsed := true, cbFunc := cbFunc, cbArgs := cbArgs }
                         else m k) }

/-- The assignments `a[i] = v` of a handler carried out on the argument
list. -/
def writeArgs {V : Type} (writes : List (Nat × V)) (args : List V) : List V :=
  writes.foldl (fun a iv => a.set iv.1 iv.2) args

/-- The effect, on the registry, of a handler's writes to the slice it was
passed: the slice of the entry for `bindID`, the one being triggered, has the
same array, so its arguments change with it.  Without writes nothing
changes. -/
def applyArgWrites {W V : Type} (bindID : Nat) (writes : List (Nat × V)) (args : List V)
    (d : Dispatch W V) : Dispatch W V :=
  match writes with
  | [] => d
  | _ :: _ =>
    match d.bindingCallbacks with
    | none => d
    | some m =>
      { d with
        bindingCallbacks :=
          some (fun k => if k = bindID then
              (m k).map (fun cb => { cb with cbArgs := writeArgs writes args })
            else m k) }

/-- The calls of `RegisterBindingCallback` a handler made, carried out in
order. -/
def applyRegisters {W V : Type} :
    List (Nat × Option (Handler W V) × List V) → Dispatch W V → Outcome W V
  | [], d => Except.ok d
  | (bindID, cbFunc, cbArgs) :: rest, d =>
    match RegisterBindingCallback bindID cbFunc cbArgs d with
    | Except.error e => Except.error e
    | Except.ok d1 => applyRegisters rest d1

/-- The method `Trigger`: `cb.cbFunc(cb.cbArgs)`, called by the loop on the
copy `cb` of the entry for the global `bindID`.  Calling a nil function
panics; otherwise the call is recorded and the handler runs, and when it
returns its effect is in the application state and in the registry. -/
def Trigger {W V : Type} (cb : callback W V) (d : Dispatch W V) : Outcome W V :=
  match cb.cbFunc with
  | none => Except.error (Panic.nilFuncCall, d)
  | some f =>
    let d1 := { d with calls := d.calls ++ [(f, cb.cbArgs)] }
    match f cb.cbArgs d.world with
    | none => Except.error (Panic.handlerPanic, d1)
    | some eff =>
      applyRegisters eff.registers
        (applyArgWrites d1.bindID eff.argWrites cb.cbArgs { d1 with world := eff.world })

/-- The body of `case bindID = <-stackPop:` for the received value `r`:
`bindID = r; thisCB = bindingCallbacks[bindID]; thisCB.Trigger()`. -/
def fired {W V : Type} (d : Dispatch W V) (r : Nat) : Outcome W V :=
  let d1 := { d with bindID := r }
  Trigger (lookup d1 r) d1

/-- The `case bindID = <-stackPop:` branch of the `select` loop; it is not
enabled (`none`) while `stackPop` is empty. -/
def loopFired {W V : Type} (d : Dispatch W V) : Option (Outcome W V) :=
  match chanRecv d.stackPop with
  | none => none
  | some (r, rest) => some (fired { d with stackPop := rest } r)

/-- One pass of the poller goroutine, `outChan <- C.NEUIK_WaitForBindingCallback(3)`,
where `r` is what the foreign call returned. -/
def pollerSend {W V : Type} (d : Dispatch W V) (r : Nat) : Option (Dispatch W V) :=
  match chanSend CHAN_CAP d.stackPop r with
  | none => none
  | some q => some { d with stackPop := q }

/-- The loop handling, one after the other, the values it receives from
`stackPop`; an unrecovered panic ends the loop. -/
def dispatchAll {W V : Type} : List Nat → Dispatch W V → Outcome W V
  | [], d => Except.ok d
  | r :: rest, d =>
    match fired d r with
    | Except.error e => Except.error e
    | Except.ok d1 => dispatchAll rest d1

/-- All the variables of `neuik_Callback.go`. -/
structure Bridge (W V : Type) where
  pool : Pool
  disp : Dispatch W V

/-- The function `StartCallbackHandler` up to its `select` loop, run in a
process whose global `nBindIDsInChan` holds `n0` and whose dispatch variables
are `d`: the map and the channels are made, then five identifiers are
preloaded. -/
def StartCallbackHandler {W V : Type} (n0 : Int) (d : Dispatch W V) : Option (Bridge W V) :=
  match startPool n0 with
  | none => none
  | some p => some { pool := p, disp := startDispatch d }

/-! ## Binding a handler to a foreign object -/

/-- The loop `for _, arg := range cbArgs { argList = append(argList, arg) }`,
started with the nil `argList`. -/
def copyArgs {V : Type} (cbArgs : List V) : List V :=
  cbArgs.foldl (fun argList arg => argList ++ [arg]) []

/-- What a call of `Element_SetCallback` or `Window.SetCallback` that ran to
its `return` did: the identifier it obtained, the package variables at the
moment the foreign `SetBindingCallback` function was called, the error
returned (`none` is the nil error) and the package variables on return. -/
structure SetCallbackRun (W V : Type) where
  bindID : Nat
  atArm : Bridge W V
  e : Option String
  final : Bridge W V

/-- The function `Element_SetCallback` called on the package variables `b`.
`setBinding` stands for the foreign `C.NEUIK_Element_SetBindingCallback` and
`E` for the element handles.  The result is `none` while the caller waits in
`GetUniqueCallbackBindID`, and a panic when `RegisterBindingCallback`
panics. -/
def Element_SetCallback {W V E : Type} (setBinding : E → String → Nat → Int) (elem : E)
    (cbName : String) (cbFunc : Option (Handler W V)) (cbArgs : List V) (b : Bridge W V) :
    Option (Except (Panic × Bridge W V) (SetCallbackRun W V)) :=
  match GetUniqueCallbackBindID b.pool with
  | none => none
  | some (bindID, p1) =>
    let b1 : Bridge W V := { b with pool := p1 }
    let e : Option String :=
      if setBinding elem cbName bindID ≠ 0 then
        some "`NEUIK_Element_SetBindingCallback()` Failed; call `neuik.BacktraceErrors()` for details."
      else none
    let argList := copyArgs cbArgs
    match RegisterBindingCallback bindID cbFunc argList b1.disp with
    | Except.error (p, d) => some (Except.error (p, { b1 with disp := d }))
    | Except.ok d =>
      some (Except.ok { bindID := bindID, atArm := b1, e := e, final := { b1 with disp := d } })

/-- The method `(win *Window) SetCallback` called on the package variables
`b`.  `setBinding` stands for the foreign `C.NEUIK_Window_SetBindingCallback`
and `E` for the window handles. -/
def Window.SetCallback {W V E : Type} (setBinding : E → String → Nat → Int) (win : E)
    (cbName : String) (cbFunc : Option (Handler W V)) (cbArgs : List V) (b : Bridge W V) :
    Option (Except (Panic × Bridge W V) (SetCallbackRun W V)) :=
  match GetUniqueCallbackBindID b.pool with
  | none => none
  | some (bindID, p1) =>
    let b1 : Bridge W V := { b with pool := p1 }
    let e : Option String :=
      if setBinding win cbName bindID ≠ 0 then
        some "`NEUIK_Window_SetBindingCallback()` Failed; call `neuik.BacktraceErrors()` for details."
      else none
    let argList := copyArgs cbArgs
    match RegisterBindingCallback bindID cbFunc argList b1.disp with
    | Except.error (p, d) => some (Except.error (p, { b1 with disp := d }))
    | Except.ok d =>
      some (Except.ok { bindID := bindID, atArm := b1, e := e, final := { b1 with disp := d } })

/-! ## How far a call of `GetUniqueCallbackBindID` gets -/

/-- The pool variables of a process in which `StartCallbackHandler` has not
run: the counters hold their zero values and nothing can be received. -/
def freshPool : Pool :=
  { bindCtr := 0, nBindIDsInChan := 0, chanNextBindID := [], chanBindIDRecv := [] }

/-- Line 50, the first statement of the body of the preload loop:
`nBindIDsInChan += 1`. -/
def preloadIncrement (s : Pool) : Pool :=
  { s with nBindIDsInChan := s.nBindIDsInChan + 1 }

/-- Line 51, the second statement of the body of the preload loop,
`chanNextBindID <- bindCtr`, followed by the `bindCtr += 1` of the loop
header. -/
def preloadSend (s : Pool) : Option Pool :=
  match chanSend CHAN_CAP s.chanNextBindID s.bindCtr with
  | none => none
  | some q => some { s with chanNextBindID := q, bindCtr := (s.bindCtr + 1) % UINT_MOD }

/-- The states `StartCallbackHandler` is in between line 50 and line 51 of the
iterations of its preload loop, first to last, when it runs from `s` with
`fuel` iterations allowed. -/
def preloadMidStates : Nat → Pool → List Pool
  | 0, _ => []
  | fuel + 1, s =>
    if s.bindCtr < PRELOAD then
      match preloadSend (preloadIncrement s) with
      | none => [preloadIncrement s]
      | some t => preloadIncrement s :: preloadMidStates fuel t
    else []

/-- The points at which a call of `GetUniqueCallbackBindID` can stand. -/
inductive ClaimOutcome where
  | waiting
  | blockedOnReceive
  | blockedOnSend
  | returned (bindID : Nat) (s : Pool)
  deriving DecidableEq, Repr

/-- The function `GetUniqueCallbackBindID`, telling apart the caller that
sleeps and retries because `nBindIDsInChan > 0` fails (`waiting`), the one
that passed the test and blocks in `<-chanNextBindID`, the one that blocks in
`chanBindIDRecv <- true`, and the one that returns. -/
def claimAttempt (s : Pool) : ClaimOutcome :=
  if s.nBindIDsInChan > 0 then
    match chanRecv s.chanNextBindID with
    | none => ClaimOutcome.blockedOnReceive
    | some (bindID, rest) =>
      match chanSend CHAN_CAP s.chanBindIDRecv true with
      | none => ClaimOutcome.blockedOnSend
      | some acks =>
        ClaimOutcome.returned bindID
          { s with
            chanNextBindID := rest
            chanBindIDRecv := acks
            nBindIDsInChan := s.nBindIDsInChan - 1 }
  else ClaimOutcome.waiting

/-! ## The package as a system of steps -/

/-- The steps the package takes once `StartCallbackHandler` has reached its
loop: a call of `GetUniqueCallbackBindID`, a call of
`RegisterBindingCallback`, a pass through either `case` of the loop, and a
pass of the poller with the value `r` it got from the foreign wait.  A `fired`
step runs a handler, which may itself register. -/
inductive BridgeStep (W V : Type) where
  | claim
  | register (bindID : Nat) (cbFunc : Option (Handler W V)) (cbArgs : List V)
  | refill
  | fired
  | poll (r : Nat)

/-- One step on the package variables; `none` when the step is not enabled or
ends in a panic. -/
def stepBridge {W V : Type} : BridgeStep W V → Bridge W V → Option (Bridge W V)
  | BridgeStep.claim, b =>
    match GetUniqueCallbackBindID b.pool with
    | none => none
    | some (_, p) => some { b with pool := p }
  | BridgeStep.register bindID cbFunc cbArgs, b =>
    match RegisterBindingCallback bindID cbFunc cbArgs b.disp with
    | Except.error _ => none
    | Except.ok d => some { b with disp := d }
  | BridgeStep.refill, b =>
    match refill b.pool with
    | none => none
    | some p => some { b with pool := p }
  | BridgeStep.fired, b =>
    match loopFired b.disp with
    | some (Except.ok d) => some { b with disp := d }
    | _ => none
  | BridgeStep.poll r, b =>
    match pollerSend b.disp r with
    | none => none
    | some d => some { b with disp := d }

/-- Run a sequence of steps. -/
def runBridge {W V : Type} : List (BridgeStep W V) → Bridge W V → Option (Bridge W V)
  | [], b => some b
  | st :: rest, b =>
    match stepBridge st b with
    | none => none
    | some b1 => runBridge rest b1

/-- The package variables when `StartCallbackHandler`, run in a fresh process
whose application state is `w`, reaches its loop. -/
def startBridge {W : Type} (V : Type) (w : W) : Bridge W V :=
  { pool := initPool, disp := startDispatch (freshDispatch V w) }

/-- The states of the package variables that steps lead to once
`StartCallbackHandler` has reached its loop. -/
def BridgeReachable {W V : Type} (b : Bridge W V) : Prop :=
  ∃ (w : W) (steps : List (BridgeStep W V)), runBridge steps (startBridge V w) = some b

/-- Values passed as `interface{}` arguments in the examples. -/
inductive Value where
  | str (s : String)
  | int (n : Int)
  deriving DecidableEq, Repr

/-- An example handler: it adds one to an application state that is a
counter. -/
def countingHandler : Handler Nat Value := fun _ w => returning (w + 1)

/-- An example handler that returns after the assignment `a[0] = "y"` to the
slice it was passed, leaving the application state as it is. -/
def argWritingHandler : Handler Nat Value :=
  fun _ w => some { world := w, argWrites := [(0, Value.str "y")], registers := [] }

/-- An example handler that returns after the call
`RegisterBindingCallback(7, countingHandler, ["x", 42])`, leaving the
application state as it is. -/
def reregisteringHandler : Handler Nat Value :=
  fun _ w =>
    some { world := w, argWrites := [],
           registers := [(7, some countingHandler, [Value.str "x", Value.int 42])] }

/-- An example handler that returns after the call
`RegisterBindingCallback(2, countingHandler, ["x", 42])`, leaving the
application state as it is. -/
def registeringTwoHandler : Handler Nat Value :=
  fun _ w =>
    some { world := w, argWrites := [],
           registers := [(2, some countingHandler, [Value.str "x", Value.int 42])] }

/-- Example handlers: number `k` adds `k` to an application state that is a
counter. -/
def addingHandler (k : Nat) : Handler Nat Value := fun _ w => returning (w + k)

/-- An example registry in which every identifier `k` is registered with
`addingHandler k` and the argument list `[k]`. -/
def allRegistered : Dispatch Nat Value :=
  { bindingCallbacks := some (fun k =>
      some { isUsed := true, cbFunc := some (addingHandler k), cbArgs := [Value.int k] })
    stackPop := []
    bindID := 0
    world := 0
    calls := [] }

/-- The freshly started package after `RegisterBindingCallback(7,
countingHandler, [42])`. -/
def sevenRegistered : Bridge Nat Value :=
  { pool := initPool
    disp :=
      { bindingCallbacks := some (fun k =>
          if k = 7 then
            some { isUsed := true, cbFunc := some countingHandler, cbArgs := [Value.int 42] }
          else none)
        stackPop := []
        bindID := 0
        world := 0
        calls := [] } }

/-! ## Initialisation -/

/-- The effects of `Init` on the outside world. -/
inductive InitAction where
  | backtraceErrors
  | goStartCallbackHandler
  deriving DecidableEq, Repr

/-- The function `Init`, given what `C.NEUIK_Init()` returned: the value of
`errOut` and the actions performed, in order. -/
def Init (neuikInit : Int) : Bool × List InitAction :=
  let failed : Bool × List InitAction :=
    if neuikInit ≠ 0 then (true, [InitAction.backtraceErrors]) else (false, [])
  (failed.1, failed.2 ++ [InitAction.goStartCallbackHandler])

end Neuik

namespace Neuik

/-! ## The pool invariant -/

theorem startPool_zero : startPool 0 = some initPool := by decide

theorem initPool_eq :
    initPool = { bindCtr := 5, nBindIDsInChan := 5, chanNextBindID := [0, 1, 2, 3, 4],
                 chanBindIDRecv := [] } := by decide

/-- Once `bindCtr` has reached 5 the preload loop exits, whatever fuel is
left. -/
theorem preloadLoop_done (fuel : Nat) (s : Pool) (h : ¬ s.bindCtr < PRELOAD) :
    preloadLoop fuel s = some s := by
  cases fuel <;> simp [preloadLoop, h]

/-- The preload loop ends after five iterations: any fuel of five or more
gives the same pool. -/
theorem preloadLoop_fuel (k : Nat) :
    preloadLoop (PRELOAD + k)
      { bindCtr := 0, nBindIDsInChan := 0, chanNextBindID := [], chanBindIDRecv := [] }
      = some initPool := by
  have e : PRELOAD + k = k + 1 + 1 + 1 + 1 + 1 := by unfold PRELOAD; omega
  rw [e, initPool_eq]
  simp only [preloadLoop, chanSend, PRELOAD, CHAN_CAP, UINT_MOD]
  simp only [Nat.zero_lt_succ, List.length_nil, if_true, List.nil_append]
  norm_num [preloadLoop_done, PRELOAD]

/-- In a fresh process `StartCallbackHandler` reaches its loop with the pool
`initPool` and an empty registry. -/
theorem StartCallbackHandler_fresh {W : Type} (V : Type) (w : W) :
    StartCallbackHandler 0 (freshDispatch V w)
      = some { pool := initPool, disp := startDispatch (freshDispatch V w) } := by
  simp only [StartCallbackHandler, startPool_zero]

theorem poolInv_init : PoolInv 0 0 initPool := by
  rw [initPool_eq]
  constructor <;> simp [UINT_MOD, List.range']

theorem claim_of_inv {c r : Nat} {s : Pool} (h : PoolInv c r s) (hlt : c < r + 5) :
    ∃ s1, GetUniqueCallbackBindID s = some (c % UINT_MOD, s1) ∧ PoolInv (c + 1) r s1 := by
  obtain ⟨h1, h2, hctr, hcnt, hwin, hacks⟩ := h
  obtain ⟨m, hm⟩ : ∃ m, 5 + r - c = m + 1 := ⟨5 + r - c - 1, by omega⟩
  have hpos : s.nBindIDsInChan > 0 := by rw [hcnt]; omega
  have hlen : (List.replicate (c - r) true).length < CHAN_CAP := by
    simp only [List.length_replicate, CHAN_CAP]; omega
  rw [hm, List.range'_succ, List.map_cons] at hwin
  have e : GetUniqueCallbackBindID s = some (c % UINT_MOD,
      { s with
        chanNextBindID := (List.range' (c + 1) m).map (fun i => i % UINT_MOD)
        chanBindIDRecv := List.replicate (c - r) true ++ [true]
        nBindIDsInChan := s.nBindIDsInChan - 1 }) := by
    simp only [GetUniqueCallbackBindID, hpos, if_true, hwin, chanRecv, hacks, chanSend, hlen]
  refine ⟨_, e, ?_⟩
  · refine ⟨by omega, by omega, hctr, ?_, ?_, ?_⟩
    · simp only [hcnt]; push_cast; omega
    · have : 5 + r - (c + 1) = m := by omega
      simp only [this]
    · have : c + 1 - r = (c - r) + 1 := by omega
      simp only [this, List.replicate_succ']

theorem claim_blocked {c r : Nat} {s : Pool} (h : PoolInv c r s) (hc : c = r + 5) :
    GetUniqueCallbackBindID s = none := by
  have hcnt := h.cnt
  have : ¬ s.nBindIDsInChan > 0 := by rw [hcnt]; omega
  simp [GetUniqueCallbackBindID, this]

theorem refill_of_inv {c r : Nat} {s : Pool} (h : PoolInv c r s) (hlt : r < c) :
    ∃ s1, refill s = some s1 ∧ PoolInv c (r + 1) s1 := by
  obtain ⟨h1, h2, hctr, hcnt, hwin, hacks⟩ := h
  obtain ⟨m, hm⟩ : ∃ m, c - r = m + 1 := ⟨c - r - 1, by omega⟩
  have hlen : s.chanNextBindID.length < CHAN_CAP := by
    simp only [hwin, List.length_map, List.length_range', CHAN_CAP]; omega
  rw [hm, List.replicate_succ] at hacks
  have e : refill s = some
      { chanBindIDRecv := List.replicate m true
        chanNextBindID := s.chanNextBindID ++ [s.bindCtr]
        nBindIDsInChan := s.nBindIDsInChan + 1
        bindCtr := (s.bindCtr + 1) % UINT_MOD } := by
    simp only [refill, hacks, chanRecv, chanSend, hlen, if_true]
  refine ⟨_, e, ?_⟩
  · refine ⟨by omega, by omega, ?_, ?_, ?_, ?_⟩
    · simp only [hctr]
      rw [Nat.mod_add_mod]
      congr 1
    · simp only [hcnt]; push_cast; omega
    · have e : 5 + (r + 1) - c = (5 + r - c) + 1 := by omega
      simp only [hwin, hctr, e, List.range'_concat, List.map_append, List.map_cons, List.map_nil]
      congr 3
      omega
    · have : c - (r + 1) = m := by omega
      simp only [this]

theorem refill_blocked {c r : Nat} {s : Pool} (h : PoolInv c r s) (hc : r = c) :
    refill s = none := by
  have hacks := h.acks
  have : c - r = 0 := by omega
  rw [this] at hacks
  simp [refill, hacks, chanRecv]

theorem runPool_inv (sched : List PoolStep) :
    ∀ {c r : Nat} {s s1 : Pool} {obs : List PoolObs}, PoolInv c r s →
      runPool sched s = some (obs, s1) →
      PoolInv (c + nClaims sched) (r + nRefills sched) s1 ∧
      returnedIDs obs = (List.range' c (nClaims sched)).map (fun i => i % UINT_MOD) ∧
      pushedIDs obs = (List.range' (5 + r) (nRefills sched)).map (fun i => i % UINT_MOD) := by
  induction sched with
  | nil =>
    intro c r s s1 obs h hrun
    simp only [runPool, Option.some.injEq, Prod.mk.injEq] at hrun
    obtain ⟨rfl, rfl⟩ := hrun
    simpa [nClaims, nRefills, returnedIDs, pushedIDs] using h
  | cons a rest ih =>
    intro c r s s1 obs h hrun
    cases a with
    | Claim =>
      by_cases hlt : c < r + 5
      · obtain ⟨t, ht, hinv⟩ := claim_of_inv h hlt
        simp only [runPool, ht] at hrun
        cases hrest : runPool rest t with
        | none => simp [hrest] at hrun
        | some p =>
          obtain ⟨obs1, t1⟩ := p
          simp only [hrest, Option.some.injEq, Prod.mk.injEq] at hrun
          obtain ⟨rfl, rfl⟩ := hrun
          obtain ⟨i1, i2, i3⟩ := ih hinv hrest
          have e1 : nClaims (PoolStep.Claim :: rest) = nClaims rest + 1 := by
            simp [nClaims]
          have e2 : nRefills (PoolStep.Claim :: rest) = nRefills rest := by
            simp [nRefills]
          refine ⟨?_, ?_, ?_⟩
          · rw [e1, e2]
            have : c + (nClaims rest + 1) = c + 1 + nClaims rest := by omega
            rw [this]
            exact i1
          · rw [e1, List.range'_succ, List.map_cons]
            simp only [returnedIDs, i2]
          · rw [e2]
            simp only [pushedIDs, i3]
      · have hb := claim_blocked h (by have := h.claims_le; omega)
        simp [runPool, hb] at hrun
    | Refill =>
      by_cases hlt : r < c
      · obtain ⟨t, ht, hinv⟩ := refill_of_inv h hlt
        simp only [runPool, ht] at hrun
        cases hrest : runPool rest t with
        | none => simp [hrest] at hrun
        | some p =>
          obtain ⟨obs1, t1⟩ := p
          simp only [hrest, Option.some.injEq, Prod.mk.injEq] at hrun
          obtain ⟨rfl, rfl⟩ := hrun
          obtain ⟨i1, i2, i3⟩ := ih hinv hrest
          have e1 : nClaims (PoolStep.Refill :: rest) = nClaims rest := by
            simp [nClaims]
          have e2 : nRefills (PoolStep.Refill :: rest) = nRefills rest + 1 := by
            simp [nRefills]
          refine ⟨?_, ?_, ?_⟩
          · rw [e1, e2]
            have : r + (nRefills rest + 1) = r + 1 + nRefills rest := by omega
            rw [this]
            exact i1
          · rw [e1]
            simp only [returnedIDs, i2]
          · rw [e2, List.range'_succ, List.map_cons]
            simp only [pushedIDs, i3, h.ctr]
            have : 5 + (r + 1) = 5 + r + 1 := by omega
            rw [this]
      · have hb := refill_blocked h (by have := h.refills_le; omega)
        simp [runPool, hb] at hrun

theorem runPool_append (a b : List PoolStep) :
    ∀ (s : Pool), runPool (a ++ b) s =
      match runPool a s with
      | none => none
      | some (o1, s1) =>
        match runPool b s1 with
        | none => none
        | some (o2, s2) => some (o1 ++ o2, s2) := by
  induction a with
  | nil =>
    intro s
    simp only [List.nil_append, runPool]
    cases runPool b s with
    | none => rfl
    | some p => rfl
  | cons x rest ih =>
    intro s
    rw [List.cons_append]
    cases x with
    | Claim =>
      simp only [runPool]
      cases GetUniqueCallbackBindID s with
      | none => rfl
      | some p =>
        obtain ⟨i, t⟩ := p
        simp only [ih t]
        cases runPool rest t with
        | none => rfl
        | some q =>
          obtain ⟨o1, t1⟩ := q
          simp only
          cases runPool b t1 with
          | none => rfl
          | some q2 => rfl
    | Refill =>
      simp only [runPool]
      cases refill s with
      | none => rfl
      | some t =>
        simp only [ih t]
        cases runPool rest t with
        | none => rfl
        | some q =>
          obtain ⟨o1, t1⟩ := q
          simp only
          cases runPool b t1 with
          | none => rfl
          | some q2 => rfl

/-- From a state with no pending acknowledgement, `k` rounds of claim and
refill all go through. -/
theorem runPool_rounds (k : Nat) :
    ∀ {c : Nat} {s : Pool}, PoolInv c c s →
      ∃ obs s1, runPool (rounds k) s = some (obs, s1) ∧ PoolInv (c + k) (c + k) s1 := by
  induction k with
  | zero =>
    intro c s h
    exact ⟨[], s, rfl, h⟩
  | succ k ih =>
    intro c s h
    obtain ⟨t, ht, hinv⟩ := claim_of_inv h (by omega)
    obtain ⟨u, hu, hinv2⟩ := refill_of_inv hinv (by omega)
    obtain ⟨obs, s1, hrun, hfin⟩ := ih hinv2
    refine ⟨PoolObs.returned (c % UINT_MOD) :: PoolObs.pushed t.bindCtr :: obs, s1, ?_, ?_⟩
    · simp only [rounds, runPool, ht, hu, hrun]
    · have : c + (k + 1) = c + 1 + k := by omega
      rw [this]
      exact hfin

theorem nClaims_rounds (k : Nat) : nClaims (rounds k) = k := by
  induction k with
  | zero => rfl
  | succ k ih =>
    simp only [nClaims] at ih
    simp [rounds, nClaims, ih]

theorem nRefills_rounds (k : Nat) : nRefills (rounds k) = k := by
  induction k with
  | zero => rfl
  | succ k ih =>
    simp only [nRefills] at ih
    simp [rounds, nRefills, ih]

/-- What every execution from the start state looks like. -/
theorem exec_summary {sched : List PoolStep} {obs : List PoolObs} {s : Pool}
    (h : runPool sched initPool = some (obs, s)) :
    PoolInv (nClaims sched) (nRefills sched) s ∧
    returnedIDs obs = (List.range' 0 (nClaims sched)).map (fun i => i % UINT_MOD) ∧
    pushedIDs obs = (List.range' 5 (nRefills sched)).map (fun i => i % UINT_MOD) := by
  have := runPool_inv sched poolInv_init h
  simpa using this

/-- The execution in which `k` rounds are followed by one more claim. -/
theorem rounds_then_claim (k : Nat) :
    ∃ obs s, runPool (rounds k ++ [PoolStep.Claim]) initPool = some (obs, s) := by
  obtain ⟨obs1, s1, hrun, hinv⟩ := runPool_rounds k poolInv_init
  obtain ⟨t, ht, _⟩ := claim_of_inv hinv (by omega)
  refine ⟨obs1 ++ [PoolObs.returned ((0 + k) % UINT_MOD)], t, ?_⟩
  rw [runPool_append]
  simp only [hrun, runPool, ht]

theorem map_mod_range_getElem (n k : Nat) (hk : k < n) :
    ((List.range' 0 n).map (fun i => i % UINT_MOD))[k]? = some (k % UINT_MOD) := by
  rw [List.getElem?_map, List.getElem?_range' _ _ hk]
  simp

/-- The pool never deadlocks: in every reachable state a caller can claim an
identifier or the loop can refill. -/
theorem pool_progress (s : Pool) (h : Reachable s) :
    (GetUniqueCallbackBindID s).isSome = true ∨ (refill s).isSome = true := by
  obtain ⟨sched, obs, hrun⟩ := h
  obtain ⟨hinv, _, _⟩ := exec_summary hrun
  by_cases hlt : nClaims sched < nRefills sched + 5
  · obtain ⟨t, ht, _⟩ := claim_of_inv hinv hlt
    left
    rw [ht]
    rfl
  · obtain ⟨t, ht, _⟩ := refill_of_inv hinv (by omega)
    right
    rw [ht]
    rfl

/-! ## Claims about the identifier pool -/

/-- C2: in every state reachable from the state `StartCallbackHandler` sets up
by Claim and Refill steps, `chanNextBindID` holds at most five identifiers. -/
theorem window_bound (s : Pool) (h : Reachable s) : s.chanNextBindID.length ≤ 5 := by
  obtain ⟨sched, obs, hrun⟩ := h
  obtain ⟨hinv, _, _⟩ := exec_summary hrun
  have h1 := hinv.refills_le
  rw [hinv.win, List.length_map, List.length_range']
  omega

theorem window_bound_witness :
    Reachable initPool ∧ initPool.chanNextBindID.length ≤ 5 :=
  ⟨⟨[], [], rfl⟩, window_bound initPool ⟨[], [], rfl⟩⟩

/-- C5: from the freshly started pool, Claim returns 0, Refill pushes 5, Claim
returns 1, Refill pushes 6; the window is then `[2, 3, 4, 5, 6]` and the next
`GetUniqueCallbackBindID` returns 2. -/
theorem refill_scenario :
    initPool.chanNextBindID = [0, 1, 2, 3, 4] ∧
    ∃ s, runPool [PoolStep.Claim, PoolStep.Refill, PoolStep.Claim, PoolStep.Refill] initPool
        = some ([PoolObs.returned 0, PoolObs.pushed 5, PoolObs.returned 1, PoolObs.pushed 6], s) ∧
      s.chanNextBindID = [2, 3, 4, 5, 6] ∧
      (GetUniqueCallbackBindID s).map Prod.fst = some 2 :=
  ⟨by decide, ⟨7, 5, [2, 3, 4, 5, 6], []⟩, by decide, by decide, by decide⟩

theorem nClaims_rounds_claim (k : Nat) : nClaims (rounds k ++ [PoolStep.Claim]) = k + 1 := by
  have := nClaims_rounds k
  simp only [nClaims] at this
  simp [nClaims, this]

/-- C1 (amended): in every execution from the start state in which at most
`2^32` calls of `GetUniqueCallbackBindID` return, the identifiers returned are
pairwise distinct. -/
theorem claimed_ids_pairwise_distinct (sched : List PoolStep) (obs : List PoolObs) (s : Pool)
    (h : runPool sched initPool = some (obs, s))
    (hN : (returnedIDs obs).length ≤ UINT_MOD) : (returnedIDs obs).Nodup := by
  obtain ⟨_, hret, _⟩ := exec_summary h
  rw [hret] at hN ⊢
  simp only [List.length_map, List.length_range'] at hN
  refine List.Nodup.map_on ?_ (List.nodup_range' 0 (nClaims sched))
  intro x hx y hy hxy
  rw [List.mem_range'_1] at hx hy
  rwa [Nat.mod_eq_of_lt (by omega), Nat.mod_eq_of_lt (by omega)] at hxy

theorem claimed_ids_pairwise_distinct_witness :
    runPool [PoolStep.Claim, PoolStep.Claim, PoolStep.Refill, PoolStep.Claim] initPool
      = some ([PoolObs.returned 0, PoolObs.returned 1, PoolObs.pushed 5, PoolObs.returned 2],
          ⟨6, 3, [3, 4, 5], [true, true]⟩) ∧
    (returnedIDs
      [PoolObs.returned 0, PoolObs.returned 1, PoolObs.pushed 5, PoolObs.returned 2]).Nodup :=
  ⟨by decide,
   claimed_ids_pairwise_distinct
     [PoolStep.Claim, PoolStep.Claim, PoolStep.Refill, PoolStep.Claim]
     [PoolObs.returned 0, PoolObs.returned 1, PoolObs.pushed 5, PoolObs.returned 2]
     ⟨6, 3, [3, 4, 5], [true, true]⟩ (by decide) (by decide)⟩

/-- C1 (as stated) fails: in the execution of `2^32` claim-and-refill rounds
followed by one more claim, the first call and the last call both return the
identifier 0, because `bindCtr` is a 32-bit counter. -/
theorem claimed_ids_repeat_after_wraparound :
    ∃ obs s, runPool (rounds UINT_MOD ++ [PoolStep.Claim]) initPool = some (obs, s) ∧
      (returnedIDs obs)[0]? = some 0 ∧ (returnedIDs obs)[UINT_MOD]? = some 0 ∧
      ¬ (returnedIDs obs).Nodup := by
  obtain ⟨obs, s, hrun⟩ := rounds_then_claim UINT_MOD
  obtain ⟨_, hret, _⟩ := exec_summary hrun
  rw [nClaims_rounds_claim] at hret
  have h0 : (returnedIDs obs)[0]? = some 0 := by
    rw [hret, map_mod_range_getElem _ 0 (by omega), Nat.zero_mod]
  have hM : (returnedIDs obs)[UINT_MOD]? = some 0 := by
    rw [hret, map_mod_range_getElem _ UINT_MOD (by omega), Nat.mod_self]
  refine ⟨obs, s, hrun, h0, hM, ?_⟩
  intro hnd
  have hlen : (returnedIDs obs).length = UINT_MOD + 1 := by
    rw [hret, List.length_map, List.length_range']
  have hpos : 0 < UINT_MOD := by unfold UINT_MOD; omega
  exact List.nodup_iff_getElem?_ne_getElem?.mp hnd 0 UINT_MOD hpos (by omega) (h0.trans hM.symm)

/-- C3 (amended): in every execution from the start state the call number
`k + 1` of `GetUniqueCallbackBindID` returns `k mod 2^32` (that is `k` itself
for the first `2^32` calls); the outgoing channel always holds, oldest first,
the identifiers that follow the ones already returned, up to `bindCtr - 1`. -/
theorem kth_claim_returns (sched : List PoolStep) (obs : List PoolObs) (s : Pool)
    (h : runPool sched initPool = some (obs, s)) (k : Nat)
    (hk : k < (returnedIDs obs).length) :
    (returnedIDs obs)[k]? = some (k % UINT_MOD) ∧
    s.chanNextBindID =
      (List.range' (nClaims sched) s.chanNextBindID.length).map (fun i => i % UINT_MOD) ∧
    s.bindCtr = (nClaims sched + s.chanNextBindID.length) % UINT_MOD := by
  obtain ⟨hinv, hret, _⟩ := exec_summary h
  have hlen : (returnedIDs obs).length = nClaims sched := by
    rw [hret, List.length_map, List.length_range']
  have hget : (returnedIDs obs)[k]? = some (k % UINT_MOD) := by
    rw [hret]
    exact map_mod_range_getElem _ k (by omega)
  have hwlen : s.chanNextBindID.length = 5 + nRefills sched - nClaims sched := by
    rw [hinv.win, List.length_map, List.length_range']
  refine ⟨hget, ?_, ?_⟩
  · rw [hwlen]
    exact hinv.win
  · have h1 := hinv.claims_le
    rw [hinv.ctr, hwlen]
    congr 1
    omega

theorem kth_claim_returns_witness :
    (runPool [PoolStep.Claim, PoolStep.Refill, PoolStep.Claim] initPool
      = some ([PoolObs.returned 0, PoolObs.pushed 5, PoolObs.returned 1],
          ⟨6, 4, [2, 3, 4, 5], [true]⟩) ∧
     1 < (returnedIDs [PoolObs.returned 0, PoolObs.pushed 5, PoolObs.returned 1]).length) ∧
    ((returnedIDs [PoolObs.returned 0, PoolObs.pushed 5, PoolObs.returned 1])[1]?
        = some (1 % UINT_MOD) ∧
     [2, 3, 4, 5] = (List.range'
        (nClaims [PoolStep.Claim, PoolStep.Refill, PoolStep.Claim]) 4).map
          (fun i => i % UINT_MOD) ∧
     6 = (nClaims [PoolStep.Claim, PoolStep.Refill, PoolStep.Claim] + 4) % UINT_MOD) :=
  ⟨⟨by decide, by decide⟩,
   kth_claim_returns [PoolStep.Claim, PoolStep.Refill, PoolStep.Claim]
      [PoolObs.returned 0, PoolObs.pushed 5, PoolObs.returned 1] ⟨6, 4, [2, 3, 4, 5], [true]⟩
      (by decide) 1 (by decide)⟩

/-- C3 (as stated) fails: after `2^32` claim-and-refill rounds the call number
`2^32 + 1` returns 0 and not `2^32`. -/
theorem claim_after_wraparound_returns_zero :
    ∃ obs s, runPool (rounds UINT_MOD ++ [PoolStep.Claim]) initPool = some (obs, s) ∧
      (returnedIDs obs).length = UINT_MOD + 1 ∧
      (returnedIDs obs)[UINT_MOD]? = some 0 ∧
      (returnedIDs obs)[UINT_MOD]? ≠ some UINT_MOD := by
  obtain ⟨obs, s, hrun⟩ := rounds_then_claim UINT_MOD
  obtain ⟨_, hret, _⟩ := exec_summary hrun
  rw [nClaims_rounds_claim] at hret
  have hM : (returnedIDs obs)[UINT_MOD]? = some 0 := by
    rw [hret, map_mod_range_getElem _ UINT_MOD (by omega), Nat.mod_self]
  refine ⟨obs, s, hrun, ?_, hM, ?_⟩
  · rw [hret, List.length_map, List.length_range']
  · rw [hM]
    unfold UINT_MOD
    intro hc
    cases hc

/-- A Refill step consumes exactly one acknowledgement and appends exactly one
identifier, the value of `bindCtr`, to `chanNextBindID`. -/
theorem refill_pushes {s t : Pool} (h : refill s = some t) :
    t.chanNextBindID = s.chanNextBindID ++ [s.bindCtr] ∧
    ∃ a, s.chanBindIDRecv = a :: t.chanBindIDRecv := by
  unfold refill at h
  cases hq : s.chanBindIDRecv with
  | nil => simp [hq, chanRecv] at h
  | cons a acks =>
    by_cases hl : s.chanNextBindID.length < CHAN_CAP
    · simp only [hq, chanRecv, chanSend, hl, if_true, Option.some.injEq] at h
      subst h
      exact ⟨rfl, a, rfl⟩
    · simp [hq, chanRecv, chanSend, hl] at h

/-- C4 (amended): `StartCallbackHandler` pre-loads exactly `0, 1, 2, 3, 4`, in
that order; afterwards every Refill step pushes exactly one identifier, and the
sequence of all identifiers ever pushed is `0, 1, 2, ...` reduced modulo `2^32`
(so each is one greater than the one before it, except that 0 follows
`2^32 - 1`). -/
theorem issue_sequence (sched : List PoolStep) (obs : List PoolObs) (s : Pool)
    (h : runPool sched initPool = some (obs, s)) :
    startPool 0 = some initPool ∧ initPool.chanNextBindID = [0, 1, 2, 3, 4] ∧
    (pushedIDs obs).length = nRefills sched ∧
    initPool.chanNextBindID ++ pushedIDs obs =
      (List.range' 0 (5 + nRefills sched)).map (fun i => i % UINT_MOD) := by
  obtain ⟨_, _, hpush⟩ := exec_summary h
  refine ⟨by decide, by decide, ?_, ?_⟩
  · rw [hpush, List.length_map, List.length_range']
  · have e : List.range' 0 (5 + nRefills sched)
        = List.range' 0 5 ++ List.range' 5 (nRefills sched) := by
      rw [Nat.add_comm 5, ← List.range'_append_1]
    rw [hpush, e, List.map_append]
    rfl

theorem issue_sequence_witness :
    runPool [PoolStep.Claim, PoolStep.Refill, PoolStep.Claim, PoolStep.Refill] initPool
      = some ([PoolObs.returned 0, PoolObs.pushed 5, PoolObs.returned 1, PoolObs.pushed 6],
          ⟨7, 5, [2, 3, 4, 5, 6], []⟩) ∧
    (startPool 0 = some initPool ∧ initPool.chanNextBindID = [0, 1, 2, 3, 4] ∧
     (pushedIDs
        [PoolObs.returned 0, PoolObs.pushed 5, PoolObs.returned 1, PoolObs.pushed 6]).length
        = nRefills [PoolStep.Claim, PoolStep.Refill, PoolStep.Claim, PoolStep.Refill] ∧
     initPool.chanNextBindID ++ pushedIDs
        [PoolObs.returned 0, PoolObs.pushed 5, PoolObs.returned 1, PoolObs.pushed 6] =
      (List.range' 0
        (5 + nRefills [PoolStep.Claim, PoolStep.Refill, PoolStep.Claim, PoolStep.Refill])).map
          (fun i => i % UINT_MOD)) :=
  ⟨by decide,
   issue_sequence [PoolStep.Claim, PoolStep.Refill, PoolStep.Claim, PoolStep.Refill]
     [PoolObs.returned 0, PoolObs.pushed 5, PoolObs.returned 1, PoolObs.pushed 6]
     ⟨7, 5, [2, 3, 4, 5, 6], []⟩ (by decide)⟩

/-- C4 (as stated) fails: in the execution of `2^32 - 4` claim-and-refill
rounds the sequence of identifiers pushed ends with `4294967295, 0`; the last
push is not one greater than the largest identifier pushed so far. -/
theorem pushed_id_wraps_to_zero :
    ∃ obs s pre, runPool (rounds 4294967292) initPool = some (obs, s) ∧
      initPool.chanNextBindID ++ pushedIDs obs = pre ++ [4294967295, 0] := by
  obtain ⟨obs, s, hrun, _⟩ := runPool_rounds 4294967292 poolInv_init
  obtain ⟨_, _, hpush⟩ := exec_summary hrun
  rw [nRefills_rounds] at hpush
  have e : (4294967292 : Nat) = 4294967290 + 1 + 1 := by norm_num
  rw [e, List.range'_concat, List.range'_concat, List.map_append, List.map_append,
    List.append_assoc] at hpush
  refine ⟨obs, s,
    initPool.chanNextBindID ++ (List.range' 5 4294967290).map (fun i => i % UINT_MOD), hrun, ?_⟩
  rw [hpush, List.append_assoc]
  congr 2

/-! ## Claims about the registry and the dispatch loop -/

theorem register_ok {W V : Type} (d : Dispatch W V) (m : Nat → Option (callback W V))
    (bindID : Nat) (f : Option (Handler W V)) (args : List V)
    (hm : d.bindingCallbacks = some m) :
    RegisterBindingCallback bindID f args d = Except.ok
      { d with
        bindingCallbacks :=
          some (fun k => if k = bindID then some { isUsed := true, cbFunc := f, cbArgs := args }
                         else m k) } := by
  simp only [RegisterBindingCallback, hm]

/-- A handler's writes to its arguments touch neither the record of calls, nor
the application state, nor the channel, nor the global `bindID`. -/
theorem applyArgWrites_keeps {W V : Type} (bindID : Nat) (writes : List (Nat × V))
    (args : List V) (d : Dispatch W V) :
    (applyArgWrites bindID writes args d).calls = d.calls ∧
    (applyArgWrites bindID writes args d).world = d.world ∧
    (applyArgWrites bindID writes args d).stackPop = d.stackPop ∧
    (applyArgWrites bindID writes args d).bindID = d.bindID ∧
    (applyArgWrites bindID writes args d).bindingCallbacks.isSome
      = d.bindingCallbacks.isSome := by
  unfold applyArgWrites
  cases writes with
  | nil => exact ⟨rfl, rfl, rfl, rfl, rfl⟩
  | cons x rest =>
    cases hm : d.bindingCallbacks with
    | none => simp [hm]
    | some m => simp [hm]

/-- A handler's registrations touch neither the record of calls, nor the
application state, nor the channel, nor the global `bindID`, and they leave a
map that exists in existence. -/
theorem applyRegisters_keeps {W V : Type}
    (regs : List (Nat × Option (Handler W V) × List V)) :
    ∀ d : Dispatch W V,
      (applyRegisters regs d).state.calls = d.calls ∧
      (applyRegisters regs d).state.world = d.world ∧
      (applyRegisters regs d).state.stackPop = d.stackPop ∧
      (applyRegisters regs d).state.bindID = d.bindID ∧
      (d.bindingCallbacks.isSome = true →
        (applyRegisters regs d).state.bindingCallbacks.isSome = true) := by
  induction regs with
  | nil =>
    intro d
    exact ⟨rfl, rfl, rfl, rfl, fun h => h⟩
  | cons x rest ih =>
    intro d
    obtain ⟨bindID, cbFunc, cbArgs⟩ := x
    cases hm : d.bindingCallbacks with
    | none =>
      simp only [applyRegisters, RegisterBindingCallback, hm, Outcome.state]
      simp
    | some m =>
      simp only [applyRegisters, register_ok d m bindID cbFunc cbArgs hm]
      obtain ⟨h1, h2, h3, h4, h5⟩ := ih { d with
        bindingCallbacks :=
          some (fun k => if k = bindID then
              some { isUsed := true, cbFunc := cbFunc, cbArgs := cbArgs }
            else m k) }
      exact ⟨h1, h2, h3, h4, fun _ => h5 rfl⟩

/-- Firing an identifier whose entry holds the handler `H` records one call of
`H` with the entry's arguments and runs `H`; when `H` returns, its writes to
the arguments and its registrations are in the registry. -/
theorem fired_registered {W V : Type} (d : Dispatch W V) (bindID : Nat) (u : Bool)
    (H : Handler W V) (args : List V)
    (he : entry d bindID = some { isUsed := u, cbFunc := some H, cbArgs := args }) :
    fired d bindID =
      match H args d.world with
      | none =>
        Except.error (Panic.handlerPanic,
          { d with bindID := bindID, calls := d.calls ++ [(H, args)] })
      | some eff =>
        applyRegisters eff.registers
          (applyArgWrites bindID eff.argWrites args
            { d with bindID := bindID, calls := d.calls ++ [(H, args)], world := eff.world }) := by
  have hl : lookup { d with bindID := bindID } bindID
      = { isUsed := u, cbFunc := some H, cbArgs := args } := by
    have : entry { d with bindID := bindID } bindID = entry d bindID := rfl
    simp only [lookup, this, he, Option.getD_some]
  simp only [fired, hl, Trigger]

/-- Whatever the handler does, firing an identifier whose entry holds the
handler `H` adds exactly one call to the record, that of `H` with the entry's
arguments. -/
theorem fired_registered_calls {W V : Type} (d : Dispatch W V) (bindID : Nat) (u : Bool)
    (H : Handler W V) (args : List V)
    (he : entry d bindID = some { isUsed := u, cbFunc := some H, cbArgs := args }) :
    (fired d bindID).state.calls = d.calls ++ [(H, args)] := by
  rw [fired_registered d bindID u H args he]
  cases hr : H args d.world with
  | none => rfl
  | some eff =>
    simp only
    rw [(applyRegisters_keeps eff.registers _).1, (applyArgWrites_keeps _ _ _ _).1]

/-- Firing an identifier that has no entry calls the nil function of the zero
`callback`. -/
theorem fired_unregistered {W V : Type} (d : Dispatch W V) (bindID : Nat)
    (he : entry d bindID = none) :
    fired d bindID = Except.error (Panic.nilFuncCall, { d with bindID := bindID }) := by
  have hl : lookup { d with bindID := bindID } bindID = callback.zero W V := by
    have : entry { d with bindID := bindID } bindID = entry d bindID := rfl
    simp only [lookup, this, he, Option.getD_none]
  simp only [fired, hl, Trigger, callback.zero]

/-- C6 (amended): for every registry state in which the map has been made
(`StartCallbackHandler` has run), `RegisterBindingCallback(id, H1, a1)`
followed by `RegisterBindingCallback(id, H2, a2)` both succeed, the entry for
`id` is then `{true, H2, a2}`, and a fired notification for `id` adds exactly
one handler call, that of `H2` with `a2`. -/
theorem reregistration_overwrites {W V : Type} (d : Dispatch W V)
    (m : Nat → Option (callback W V)) (id : Nat) (H1 H2 : Handler W V) (a1 a2 : List V)
    (hm : d.bindingCallbacks = some m) :
    ∃ d1 d2, RegisterBindingCallback id (some H1) a1 d = Except.ok d1 ∧
      RegisterBindingCallback id (some H2) a2 d1 = Except.ok d2 ∧
      entry d2 id = some { isUsed := true, cbFunc := some H2, cbArgs := a2 } ∧
      (fired d2 id).state.calls = d.calls ++ [(H2, a2)] := by
  refine ⟨_, _, register_ok d m id (some H1) a1 hm, register_ok _ _ id (some H2) a2 rfl, ?_, ?_⟩
  · simp [entry]
  · exact fired_registered_calls _ id true H2 a2 (by simp [entry])

theorem reregistration_overwrites_witness :
    (startDispatch (freshDispatch Value (0 : Nat))).bindingCallbacks = some (fun _ => none) ∧
    ∃ d1 d2,
      RegisterBindingCallback 7 (some (fun _ w => returning (w + 1))) [Value.str "x"]
          (startDispatch (freshDispatch Value (0 : Nat))) = Except.ok d1 ∧
      RegisterBindingCallback 7 (some (fun _ w => returning (w + 2))) [Value.int 42] d1
          = Except.ok d2 ∧
      entry d2 7 = some { isUsed := true, cbFunc := some (fun _ w => returning (w + 2)),
                          cbArgs := [Value.int 42] } ∧
      (fired d2 7).state.calls =
        (startDispatch (freshDispatch Value (0 : Nat))).calls
          ++ [((fun _ w => returning (w + 2)), [Value.int 42])] :=
  ⟨rfl,
   reregistration_overwrites (startDispatch (freshDispatch Value (0 : Nat))) (fun _ => none) 7
     (fun _ w => returning (w + 1)) (fun _ w => returning (w + 2)) [Value.str "x"] [Value.int 42] rfl⟩

/-- C6 (as stated) fails: before `StartCallbackHandler` has made the map,
`bindingCallbacks` is the nil map and `RegisterBindingCallback` panics. -/
theorem register_on_nil_map_panics :
    RegisterBindingCallback 7 (some (fun _ w => returning (w + 1))) [Value.str "x"]
        (freshDispatch Value (0 : Nat))
      = Except.error (Panic.nilMapWrite, freshDispatch Value (0 : Nat)) := rfl

/-- Without writes the argument list stays as it is. -/
theorem writeArgs_nil {V : Type} (args : List V) : writeArgs [] args = args := rfl

/-- Writes that leave the argument slice as it was leave every entry of the
registry as it was. -/
theorem applyArgWrites_same {W V : Type} (bindID : Nat) (writes : List (Nat × V))
    (args : List V) (d : Dispatch W V) (u : Bool) (f : Option (Handler W V))
    (he : entry d bindID = some { isUsed := u, cbFunc := f, cbArgs := args })
    (hw : writeArgs writes args = args) (k : Nat) :
    entry (applyArgWrites bindID writes args d) k = entry d k := by
  unfold applyArgWrites
  cases writes with
  | nil => rfl
  | cons x rest =>
    cases hm : d.bindingCallbacks with
    | none => simp [hm]
    | some m =>
      simp only [entry, hm] at he
      simp only [entry, hm]
      by_cases hk : k = bindID
      · subst hk
        simp only [if_true, he, Option.map_some', hw]
      · simp only [hk, if_false]

/-- Registrations for identifiers outside `P` all go through on a map that
exists and leave the entries of the identifiers of `P` as they were. -/
theorem applyRegisters_other {W V : Type} (P : List Nat)
    (regs : List (Nat × Option (Handler W V) × List V)) :
    ∀ d : Dispatch W V, d.bindingCallbacks.isSome = true → (∀ r ∈ regs, r.1 ∉ P) →
      ∃ d1, applyRegisters regs d = Except.ok d1 ∧ d1.calls = d.calls ∧
        d1.world = d.world ∧ ∀ i ∈ P, entry d1 i = entry d i := by
  induction regs with
  | nil =>
    intro d _ _
    exact ⟨d, rfl, rfl, rfl, fun _ _ => rfl⟩
  | cons x rest ih =>
    intro d hsome hout
    obtain ⟨bindID, cbFunc, cbArgs⟩ := x
    obtain ⟨m, hm⟩ := Option.isSome_iff_exists.mp hsome
    have hx : bindID ∉ P := hout (bindID, cbFunc, cbArgs) (List.mem_cons_self _ _)
    obtain ⟨d1, hrun, hcalls, hworld, hent⟩ :=
      ih { d with
           bindingCallbacks :=
             some (fun k => if k = bindID then
                 some { isUsed := true, cbFunc := cbFunc, cbArgs := cbArgs }
               else m k) }
        rfl (fun r hr => hout r (List.mem_cons_of_mem _ hr))
    refine ⟨d1, ?_, hcalls, hworld, ?_⟩
    · simp only [applyRegisters, register_ok d m bindID cbFunc cbArgs hm]
      exact hrun
    · intro i hi
      rw [hent i hi]
      have hne : i ≠ bindID := fun h => hx (h ▸ hi)
      simp [entry, hm, hne]

/-- Firing an identifier whose handler returns, leaves its argument slice as it
was and registers nothing for the identifiers of `P` adds the one call to the
record and leaves the entries of the identifiers of `P` as they were. -/
theorem fired_quiet {W V : Type} (P : List Nat) (d : Dispatch W V) (bindID : Nat) (u : Bool)
    (H : Handler W V) (args : List V) (eff : HandlerEffect W V)
    (he : entry d bindID = some { isUsed := u, cbFunc := some H, cbArgs := args })
    (hH : H args d.world = some eff) (hw : writeArgs eff.argWrites args = args)
    (hout : ∀ r ∈ eff.registers, r.1 ∉ P) :
    ∃ d1, fired d bindID = Except.ok d1 ∧ d1.calls = d.calls ++ [(H, args)] ∧
      ∀ i ∈ P, entry d1 i = entry d i := by
  have hsome : d.bindingCallbacks.isSome = true := by
    cases hm : d.bindingCallbacks with
    | none => simp [entry, hm] at he
    | some m => rfl
  rw [fired_registered d bindID u H args he, hH]
  simp only
  have hk := applyArgWrites_keeps bindID eff.argWrites args
    { d with bindID := bindID, calls := d.calls ++ [(H, args)], world := eff.world }
  obtain ⟨d1, hrun, hcalls, _, hent⟩ := applyRegisters_other P eff.registers
    (applyArgWrites bindID eff.argWrites args
      { d with bindID := bindID, calls := d.calls ++ [(H, args)], world := eff.world })
    (by rw [hk.2.2.2.2]; exact hsome) hout
  refine ⟨d1, hrun, ?_, ?_⟩
  · rw [hcalls, hk.1]
  · intro i hi
    rw [hent i hi]
    exact applyArgWrites_same bindID eff.argWrites args
      { d with bindID := bindID, calls := d.calls ++ [(H, args)], world := eff.world }
      u (some H) he hw i

/-- The loop handles a list of identifiers, all among those of `P`, when every
identifier of `P` is registered with a handler that returns, leaves its
argument slice as it was and registers nothing for the identifiers of `P`: the
handlers are called in the order of the list and the entries of the
identifiers of `P` stay as they were. -/
theorem dispatchAll_quiet {W V : Type} (P : List Nat) (Hf : Nat → Handler W V)
    (af : Nat → List V)
    (hquiet : ∀ i ∈ P, ∀ w, ∃ eff, Hf i (af i) w = some eff ∧
      writeArgs eff.argWrites (af i) = af i ∧ ∀ r ∈ eff.registers, r.1 ∉ P)
    (ids : List Nat) :
    ∀ (d : Dispatch W V), (∀ i ∈ ids, i ∈ P) →
      (∀ i ∈ P, ∃ u, entry d i = some { isUsed := u, cbFunc := some (Hf i), cbArgs := af i }) →
      ∃ d2, dispatchAll ids d = Except.ok d2 ∧
        d2.calls = d.calls ++ ids.map (fun i => (Hf i, af i)) ∧
        ∀ i ∈ P, entry d2 i = entry d i := by
  induction ids with
  | nil =>
    intro d _ _
    exact ⟨d, rfl, by simp, fun _ _ => rfl⟩
  | cons i rest ih =>
    intro d hsub hreg
    have hi : i ∈ P := hsub i (List.mem_cons_self i rest)
    obtain ⟨u, he⟩ := hreg i hi
    obtain ⟨eff, hH, hw, hout⟩ := hquiet i hi d.world
    obtain ⟨d1, hf, hcalls1, hent1⟩ := fired_quiet P d i u (Hf i) (af i) eff he hH hw hout
    obtain ⟨d2, hrun, hcalls, hent⟩ := ih d1 (fun j hj => hsub j (List.mem_cons_of_mem i hj))
      (fun j hj => by rw [hent1 j hj]; exact hreg j hj)
    refine ⟨d2, ?_, ?_, ?_⟩
    · simp only [dispatchAll, hf]
      exact hrun
    · rw [hcalls, hcalls1, List.map_cons, List.append_assoc]
      rfl
    · intro j hj
      rw [hent j hj, hent1 j hj]

/-- C7 (amended): for every identifier `id`, argument list `args` and handler
`H` that, whenever it is called with `args`, returns normally, leaves its
argument slice as it was and registers no callback for `id`, once
`RegisterBindingCallback(id, H, args)` has been made on a registry whose map
exists, the loop handling `n` consecutive fired notifications for `id` calls
`H` exactly `n` times, each time with `args`, and leaves the registry entry
for `id` as it was. -/
theorem repeated_firing {W V : Type} (d : Dispatch W V) (m : Nat → Option (callback W V))
    (id : Nat) (H : Handler W V) (args : List V) (n : Nat)
    (hm : d.bindingCallbacks = some m)
    (hH : ∀ w, ∃ eff, H args w = some eff ∧ writeArgs eff.argWrites args = args ∧
      ∀ r ∈ eff.registers, r.1 ≠ id) :
    ∃ d1 d2, RegisterBindingCallback id (some H) args d = Except.ok d1 ∧
      entry d1 id = some { isUsed := true, cbFunc := some H, cbArgs := args } ∧
      dispatchAll (List.replicate n id) d1 = Except.ok d2 ∧
      d2.calls = d.calls ++ List.replicate n (H, args) ∧
      entry d2 id = some { isUsed := true, cbFunc := some H, cbArgs := args } := by
  have hreg := register_ok d m id (some H) args hm
  have he : entry
      { d with
        bindingCallbacks :=
          some (fun k => if k = id then some { isUsed := true, cbFunc := some H, cbArgs := args }
                         else m k) } id
      = some { isUsed := true, cbFunc := some H, cbArgs := args } := by
    simp [entry]
  obtain ⟨d2, hrun, hcalls, hent⟩ :=
    dispatchAll_quiet [id] (fun _ => H) (fun _ => args)
      (fun i _ w => by
        obtain ⟨eff, h1, h2, h3⟩ := hH w
        exact ⟨eff, h1, h2, fun r hr => by simpa using h3 r hr⟩)
      (List.replicate n id) _
      (fun i hi => by rw [List.eq_of_mem_replicate hi]; simp)
      (fun i hi => by
        have : i = id := by simpa using hi
        subst this
        exact ⟨true, he⟩)
  refine ⟨_, d2, hreg, he, hrun, ?_, ?_⟩
  · rw [hcalls, List.map_replicate]
  · rw [hent id (by simp), he]

theorem repeated_firing_witness :
    ((startDispatch (freshDispatch Value (0 : Nat))).bindingCallbacks = some (fun _ => none) ∧
     ∀ w : Nat, ∃ eff, countingHandler [Value.str "x", Value.int 42] w = some eff ∧
       writeArgs eff.argWrites [Value.str "x", Value.int 42] = [Value.str "x", Value.int 42] ∧
       ∀ r ∈ eff.registers, r.1 ≠ 7) ∧
    ∃ d1 d2,
      RegisterBindingCallback 7 (some countingHandler) [Value.str "x", Value.int 42]
          (startDispatch (freshDispatch Value (0 : Nat))) = Except.ok d1 ∧
      entry d1 7 = some { isUsed := true, cbFunc := some countingHandler,
                          cbArgs := [Value.str "x", Value.int 42] } ∧
      dispatchAll (List.replicate 2 7) d1 = Except.ok d2 ∧
      d2.calls = (startDispatch (freshDispatch Value (0 : Nat))).calls ++
        List.replicate 2 (countingHandler, [Value.str "x", Value.int 42]) ∧
      entry d2 7 = some { isUsed := true, cbFunc := some countingHandler,
                          cbArgs := [Value.str "x", Value.int 42] } :=
  ⟨⟨rfl, fun w => ⟨_, rfl, rfl, fun _ hr => by cases hr⟩⟩,
   repeated_firing (startDispatch (freshDispatch Value (0 : Nat))) (fun _ => none) 7
     countingHandler [Value.str "x", Value.int 42] 2 rfl
     (fun w => ⟨_, rfl, rfl, fun _ hr => by cases hr⟩)⟩

/-- C7 (as stated) fails, in three ways, each with the identifier 7 registered
with the arguments `["x", 42]` and fired twice.  A handler that panics is
called once only, because the panic ends the loop.  A handler that returns
after the assignment `a[0] = "y"` is called the second time with
`["y", 42]`, and the entry for 7 then holds `["y", 42]`.  A handler that
returns after `RegisterBindingCallback(7, countingHandler, ["x", 42])` is
called once, the second call being one of `countingHandler`. -/
theorem repeated_firing_broken_by_handler :
    (∃ d1 d2,
      RegisterBindingCallback 7 (some (fun _ _ => none)) [Value.str "x", Value.int 42]
          (startDispatch (freshDispatch Value (0 : Nat))) = Except.ok d1 ∧
      dispatchAll [7, 7] d1 = Except.error (Panic.handlerPanic, d2) ∧
      d2.calls.length = 1) ∧
    (∃ d1 d2,
      RegisterBindingCallback 7 (some argWritingHandler) [Value.str "x", Value.int 42]
          (startDispatch (freshDispatch Value (0 : Nat))) = Except.ok d1 ∧
      dispatchAll [7, 7] d1 = Except.ok d2 ∧
      d2.calls.map Prod.snd
        = [[Value.str "x", Value.int 42], [Value.str "y", Value.int 42]] ∧
      (entry d2 7).map (fun cb => cb.cbArgs) = some [Value.str "y", Value.int 42]) ∧
    (∃ d1 d2,
      RegisterBindingCallback 7 (some reregisteringHandler) [Value.str "x", Value.int 42]
          (startDispatch (freshDispatch Value (0 : Nat))) = Except.ok d1 ∧
      dispatchAll [7, 7] d1 = Except.ok d2 ∧
      d2.calls = [(reregisteringHandler, [Value.str "x", Value.int 42]),
                  (countingHandler, [Value.str "x", Value.int 42])] ∧
      d2.world = 1) :=
  ⟨⟨_, _, rfl, rfl, rfl⟩, ⟨_, _, rfl, rfl, rfl, rfl⟩, ⟨_, _, rfl, rfl, rfl, rfl⟩⟩

/-- C8 (the code at the failing input): with an empty registry, as
`StartCallbackHandler` makes it, handling a fired notification for the
identifier 7 panics on the call of a nil function; when the notifications 7 and
3 arrive in this order and 3 is registered, the handler of 3 is never
called. -/
theorem unregistered_fire_panics :
    fired (startDispatch (freshDispatch Value (0 : Nat))) 7
      = Except.error (Panic.nilFuncCall,
          { startDispatch (freshDispatch Value (0 : Nat)) with bindID := 7 }) ∧
    ∃ d1 d2,
      RegisterBindingCallback 3 (some (fun _ w => returning (w + 1))) [Value.int 42]
          (startDispatch (freshDispatch Value (0 : Nat))) = Except.ok d1 ∧
      entry d1 7 = none ∧
      dispatchAll [7, 3] d1 = Except.error (Panic.nilFuncCall, d2) ∧
      d2.calls = [] :=
  ⟨rfl, _, _, rfl, rfl, rfl, rfl⟩

/-- C9 (amended): the poller forwards every result `r` of
`NEUIK_WaitForBindingCallback`, whatever its value, to `stackPop` (as long as
the channel has room), and the loop, on receiving `r`, looks `r` up in the
registry and triggers what it finds. -/
theorem poller_forwards_every_result {W V : Type} (d : Dispatch W V) (r : Nat)
    (rest : List Nat) (hroom : d.stackPop.length < CHAN_CAP) :
    pollerSend d r = some { d with stackPop := d.stackPop ++ [r] } ∧
    loopFired { d with stackPop := r :: rest } =
      some (Trigger (lookup d r) { d with stackPop := rest, bindID := r }) := by
  constructor
  · simp only [pollerSend, chanSend, hroom, if_true]
  · rfl

theorem poller_forwards_every_result_witness :
    (startDispatch (freshDispatch Value (0 : Nat))).stackPop.length < CHAN_CAP ∧
    (pollerSend (startDispatch (freshDispatch Value (0 : Nat))) 0
      = some { startDispatch (freshDispatch Value (0 : Nat)) with
               stackPop := (startDispatch (freshDispatch Value (0 : Nat))).stackPop ++ [0] } ∧
     loopFired { startDispatch (freshDispatch Value (0 : Nat)) with stackPop := 0 :: [] } =
      some (Trigger (lookup (startDispatch (freshDispatch Value (0 : Nat))) 0)
        { startDispatch (freshDispatch Value (0 : Nat)) with stackPop := [], bindID := 0 })) :=
  ⟨by decide,
   poller_forwards_every_result (startDispatch (freshDispatch Value (0 : Nat))) 0 []
     (by decide)⟩

/-- C9 (as stated) fails: taking 0 for the timeout sentinel, with a handler
registered for the identifier 0, the poller puts the 0 returned on a timeout
on `stackPop`, and the loop then looks it up and calls the handler. -/
theorem sentinel_is_forwarded_and_triggered :
    ∃ d0 d1 d2,
      RegisterBindingCallback 0 (some (fun _ w => returning (w + 1))) [Value.str "x"]
          (startDispatch (freshDispatch Value (0 : Nat))) = Except.ok d0 ∧
      pollerSend d0 0 = some d1 ∧ d1.stackPop = [0] ∧
      loopFired d1 = some (Except.ok d2) ∧
      d2.calls.length = 1 ∧ d2.world = 1 :=
  ⟨_, _, _, rfl, rfl, rfl, rfl, rfl, rfl⟩

/-! ## Claims about initialisation -/

/-- C10 (amended): `Init` returns `errOut = true` exactly when `NEUIK_Init`
reports failure (a non-zero result), and it starts `StartCallbackHandler` in
either case. -/
theorem Init_reports_and_starts (neuikInit : Int) :
    (Init neuikInit).1 = decide (neuikInit ≠ 0) ∧
    InitAction.goStartCallbackHandler ∈ (Init neuikInit).2 := by
  unfold Init
  by_cases h : neuikInit ≠ 0 <;> simp [h]

/-- C10 (as stated) fails: when `NEUIK_Init` returns 1, `Init` returns
`errOut = true` and still starts `StartCallbackHandler`. -/
theorem Init_failure_still_starts_handler :
    Init 1 = (true, [InitAction.backtraceErrors, InitAction.goStartCallbackHandler]) := by
  decide

/-! ## Channel occupancy and the availability counter -/

/-- The one-step function `GetUniqueCallbackBindID` is `claimAttempt` with
the three ways of not returning merged. -/
theorem GetUniqueCallbackBindID_eq_claimAttempt (s : Pool) :
    GetUniqueCallbackBindID s =
      match claimAttempt s with
      | ClaimOutcome.returned bindID t => some (bindID, t)
      | _ => none := by
  unfold GetUniqueCallbackBindID claimAttempt
  by_cases hpos : s.nBindIDsInChan > 0
  · simp only [hpos, if_true]
    cases chanRecv s.chanNextBindID with
    | none => rfl
    | some p =>
      obtain ⟨i, rest⟩ := p
      simp only
      cases chanSend CHAN_CAP s.chanBindIDRecv true with
      | none => rfl
      | some acks => rfl
  · simp only [hpos, if_false]

/-- C16: in every state reachable by Claim and Refill steps the identifiers in
`chanNextBindID` and the acknowledgements pending in `chanBindIDRecv` number
five together, so each channel holds at most five items, fewer than its buffer
size of 20, and a send on either channel does not block. -/
theorem channel_conservation (s : Pool) (h : Reachable s) :
    s.chanNextBindID.length + s.chanBindIDRecv.length = 5 ∧
    s.chanNextBindID.length ≤ 5 ∧ s.chanBindIDRecv.length ≤ 5 ∧
    s.chanNextBindID.length < CHAN_CAP ∧ s.chanBindIDRecv.length < CHAN_CAP ∧
    chanSend CHAN_CAP s.chanBindIDRecv true = some (s.chanBindIDRecv ++ [true]) ∧
    chanSend CHAN_CAP s.chanNextBindID s.bindCtr = some (s.chanNextBindID ++ [s.bindCtr]) := by
  obtain ⟨sched, obs, hrun⟩ := h
  obtain ⟨hinv, _, _⟩ := exec_summary hrun
  have h1 := hinv.refills_le
  have h2 := hinv.claims_le
  have hw : s.chanNextBindID.length = 5 + nRefills sched - nClaims sched := by
    rw [hinv.win, List.length_map, List.length_range']
  have ha : s.chanBindIDRecv.length = nClaims sched - nRefills sched := by
    rw [hinv.acks, List.length_replicate]
  have hwc : s.chanNextBindID.length < CHAN_CAP := by rw [hw]; unfold CHAN_CAP; omega
  have hac : s.chanBindIDRecv.length < CHAN_CAP := by rw [ha]; unfold CHAN_CAP; omega
  refine ⟨by omega, by omega, by omega, hwc, hac, ?_, ?_⟩
  · simp only [chanSend, hac, if_true]
  · simp only [chanSend, hwc, if_true]

theorem channel_conservation_witness :
    Reachable ⟨6, 3, [3, 4, 5], [true, true]⟩ ∧
    (([3, 4, 5] : List Nat).length + ([true, true] : List Bool).length = 5 ∧
     ([3, 4, 5] : List Nat).length ≤ 5 ∧ ([true, true] : List Bool).length ≤ 5 ∧
     ([3, 4, 5] : List Nat).length < CHAN_CAP ∧ ([true, true] : List Bool).length < CHAN_CAP ∧
     chanSend CHAN_CAP [true, true] true = some ([true, true] ++ [true]) ∧
     chanSend CHAN_CAP [3, 4, 5] 6 = some ([3, 4, 5] ++ [6])) :=
  ⟨⟨[PoolStep.Claim, PoolStep.Claim, PoolStep.Refill, PoolStep.Claim],
    [PoolObs.returned 0, PoolObs.returned 1, PoolObs.pushed 5, PoolObs.returned 2], by decide⟩,
   channel_conservation ⟨6, 3, [3, 4, 5], [true, true]⟩
     ⟨[PoolStep.Claim, PoolStep.Claim, PoolStep.Refill, PoolStep.Claim],
      [PoolObs.returned 0, PoolObs.returned 1, PoolObs.pushed 5, PoolObs.returned 2],
      by decide⟩⟩

/-- Once the preload has completed, with Claim and Refill as atomic steps,
`nBindIDsInChan` is the number of identifiers in `chanNextBindID`; a call of
`GetUniqueCallbackBindID` then either fails the test `nBindIDsInChan > 0` and
waits, or passes it and returns the oldest identifier without blocking; and
before `StartCallbackHandler` has run the call waits at the test. -/
theorem availability_counter_exact (s : Pool) (h : Reachable s) :
    s.nBindIDsInChan = (s.chanNextBindID.length : Int) ∧
    ((¬ s.nBindIDsInChan > 0 ∧ claimAttempt s = ClaimOutcome.waiting) ∨
     (s.nBindIDsInChan > 0 ∧
      ∃ bindID t, claimAttempt s = ClaimOutcome.returned bindID t ∧
        s.chanNextBindID = bindID :: t.chanNextBindID ∧
        t.nBindIDsInChan = (t.chanNextBindID.length : Int))) ∧
    freshPool.nBindIDsInChan = 0 ∧ claimAttempt freshPool = ClaimOutcome.waiting := by
  obtain ⟨sched, obs, hrun⟩ := h
  obtain ⟨hinv, _, _⟩ := exec_summary hrun
  have h1 := hinv.refills_le
  have h2 := hinv.claims_le
  have hw : s.chanNextBindID.length = 5 + nRefills sched - nClaims sched := by
    rw [hinv.win, List.length_map, List.length_range']
  have hcnt : s.nBindIDsInChan = (s.chanNextBindID.length : Int) := by
    rw [hinv.cnt, hw]; omega
  refine ⟨hcnt, ?_, rfl, by decide⟩
  by_cases hlt : nClaims sched < nRefills sched + 5
  · right
    obtain ⟨t, ht, hinv2⟩ := claim_of_inv hinv hlt
    have hpos : s.nBindIDsInChan > 0 := by rw [hinv.cnt]; omega
    have hca := GetUniqueCallbackBindID_eq_claimAttempt s
    rw [ht] at hca
    have hwin2 : t.chanNextBindID.length = 5 + nRefills sched - (nClaims sched + 1) := by
      rw [hinv2.win, List.length_map, List.length_range']
    have hcnt2 : t.nBindIDsInChan = (t.chanNextBindID.length : Int) := by
      rw [hinv2.cnt, hwin2]; push_cast; omega
    have hs : s.chanNextBindID = (nClaims sched % UINT_MOD) :: t.chanNextBindID := by
      obtain ⟨m, hm⟩ : ∃ m, 5 + nRefills sched - nClaims sched = m + 1 :=
        ⟨5 + nRefills sched - nClaims sched - 1, by omega⟩
      have e : 5 + nRefills sched - (nClaims sched + 1) = m := by omega
      rw [hinv.win, hinv2.win, hm, e, List.range'_succ, List.map_cons]
    refine ⟨hpos, nClaims sched % UINT_MOD, t, ?_, hs, hcnt2⟩
    cases hc : claimAttempt s with
    | returned i u =>
      rw [hc] at hca
      simp only [Option.some.injEq, Prod.mk.injEq] at hca
      rw [hca.1, hca.2]
    | waiting => rw [hc] at hca; cases hca
    | blockedOnReceive => rw [hc] at hca; cases hca
    | blockedOnSend => rw [hc] at hca; cases hca
  · left
    have hnot : ¬ s.nBindIDsInChan > 0 := by rw [hinv.cnt]; omega
    exact ⟨hnot, by simp only [claimAttempt, hnot, if_false]⟩

/-- One iteration of the preload loop is line 50 followed by line 51. -/
theorem preloadLoop_iteration (fuel : Nat) (s : Pool) (h : s.bindCtr < PRELOAD) :
    preloadLoop (fuel + 1) s =
      match preloadSend (preloadIncrement s) with
      | none => none
      | some t => preloadLoop fuel t := by
  simp only [preloadLoop, h, if_true, preloadSend, preloadIncrement]
  cases chanSend CHAN_CAP s.chanNextBindID s.bindCtr <;> rfl

/-- C17 (the code at the failing input): in a fresh process
`StartCallbackHandler` passes, between line 50 and line 51 of the first
iteration of its preload loop, through the state in which `nBindIDsInChan` is
1 and `chanNextBindID` is empty.  A call of `GetUniqueCallbackBindID` in that
state passes the test `nBindIDsInChan > 0` and blocks in the receive.  The
same holds in each of the five iterations: the counter is one more than the
number of identifiers in the channel. -/
theorem guard_passes_on_empty_channel :
    startPool 0 = preloadLoop PRELOAD freshPool ∧
    preloadLoop PRELOAD freshPool
      = (preloadSend (preloadIncrement freshPool)).bind (preloadLoop 4) ∧
    preloadIncrement freshPool
      = { bindCtr := 0, nBindIDsInChan := 1, chanNextBindID := [], chanBindIDRecv := [] } ∧
    claimAttempt (preloadIncrement freshPool) = ClaimOutcome.blockedOnReceive ∧
    GetUniqueCallbackBindID (preloadIncrement freshPool) = none ∧
    preloadMidStates PRELOAD freshPool
      = [⟨0, 1, [], []⟩, ⟨1, 2, [0], []⟩, ⟨2, 3, [0, 1], []⟩, ⟨3, 4, [0, 1, 2], []⟩,
         ⟨4, 5, [0, 1, 2, 3], []⟩] ∧
    (preloadMidStates PRELOAD freshPool).all
      (fun s => decide (s.nBindIDsInChan = (s.chanNextBindID.length : Int) + 1)) = true := by
  refine ⟨rfl, by decide, by decide, by decide, by decide, by decide, by decide⟩

/-! ## Claims about binding a handler -/

theorem foldl_snoc {V : Type} (l init : List V) :
    l.foldl (fun argList arg => argList ++ [arg]) init = init ++ l := by
  induction l generalizing init with
  | nil => simp
  | cons a rest ih => simp [List.foldl, ih]

/-- The argument list handed to `RegisterBindingCallback` is the list of the
variadic arguments, in order. -/
theorem copyArgs_eq {V : Type} (cbArgs : List V) : copyArgs cbArgs = cbArgs := by
  unfold copyArgs
  rw [foldl_snoc]
  rfl

/-- Handling a fired notification leaves a map that exists in existence,
whatever the handler registers. -/
theorem fired_map_made {W V : Type} (d : Dispatch W V) (r : Nat)
    (hm : d.bindingCallbacks.isSome = true) :
    (fired d r).state.bindingCallbacks.isSome = true := by
  unfold fired Trigger
  simp only
  cases (lookup { d with bindID := r } r).cbFunc with
  | none => exact hm
  | some f =>
    simp only
    cases f (lookup { d with bindID := r } r).cbArgs d.world with
    | none => exact hm
    | some eff =>
      simp only
      refine (applyRegisters_keeps eff.registers _).2.2.2.2 ?_
      rw [(applyArgWrites_keeps _ _ _ _).2.2.2.2]
      exact hm

theorem stepBridge_map_made {W V : Type} (st : BridgeStep W V) (b b1 : Bridge W V)
    (h : stepBridge st b = some b1) (hm : b.disp.bindingCallbacks.isSome = true) :
    b1.disp.bindingCallbacks.isSome = true := by
  cases st with
  | claim =>
    simp only [stepBridge] at h
    cases hc : GetUniqueCallbackBindID b.pool with
    | none => simp [hc] at h
    | some q =>
      simp only [hc, Option.some.injEq] at h
      subst h
      exact hm
  | register bindID cbFunc cbArgs =>
    obtain ⟨m, hmm⟩ := Option.isSome_iff_exists.mp hm
    simp only [stepBridge, register_ok b.disp m bindID cbFunc cbArgs hmm,
      Option.some.injEq] at h
    subst h
    rfl
  | refill =>
    simp only [stepBridge] at h
    cases hc : refill b.pool with
    | none => simp [hc] at h
    | some q =>
      simp only [hc, Option.some.injEq] at h
      subst h
      exact hm
  | fired =>
    simp only [stepBridge, loopFired] at h
    cases hq : b.disp.stackPop with
    | nil => simp [hq, chanRecv] at h
    | cons r rest =>
      simp only [hq, chanRecv] at h
      have hk := fired_map_made { b.disp with stackPop := rest } r hm
      cases hf : fired { b.disp with stackPop := rest } r with
      | error e => simp [hf] at h
      | ok d =>
        simp only [hf, Option.some.injEq] at h
        subst h
        rw [hf] at hk
        exact hk
  | poll r =>
    simp only [stepBridge, pollerSend] at h
    cases hc : chanSend CHAN_CAP b.disp.stackPop r with
    | none => simp [hc] at h
    | some q =>
      simp only [hc, Option.some.injEq] at h
      subst h
      exact hm

theorem runBridge_map_made {W V : Type} (steps : List (BridgeStep W V)) :
    ∀ (b b1 : Bridge W V), runBridge steps b = some b1 →
      b.disp.bindingCallbacks.isSome = true → b1.disp.bindingCallbacks.isSome = true := by
  induction steps with
  | nil =>
    intro b b1 h hm
    simp only [runBridge, Option.some.injEq] at h
    subst h
    exact hm
  | cons st rest ih =>
    intro b b1 h hm
    simp only [runBridge] at h
    cases hs : stepBridge st b with
    | none => simp [hs] at h
    | some b2 =>
      simp only [hs] at h
      exact ih b2 b1 h (stepBridge_map_made st b b2 hs hm)

/-- Once `StartCallbackHandler` has reached its loop the registry map
exists. -/
theorem reachable_map_made {W V : Type} (b : Bridge W V) (h : BridgeReachable b) :
    ∃ m, b.disp.bindingCallbacks = some m := by
  obtain ⟨w, steps, hrun⟩ := h
  exact Option.isSome_iff_exists.mp (runBridge_map_made steps _ b hrun rfl)

/-- Before `StartCallbackHandler` has run, a call of `Element_SetCallback` or
`Window.SetCallback` waits in `GetUniqueCallbackBindID`. -/
theorem setCallback_waits_before_start {W V E : Type} (setBinding : E → String → Nat → Int)
    (h : E) (cbName : String) (cbFunc : Option (Handler W V)) (cbArgs : List V) (w : W) :
    Element_SetCallback setBinding h cbName cbFunc cbArgs
        { pool := freshPool, disp := freshDispatch V w } = none ∧
    Window.SetCallback setBinding h cbName cbFunc cbArgs
        { pool := freshPool, disp := freshDispatch V w } = none :=
  ⟨rfl, rfl⟩

/-- What `Element_SetCallback` does once it has obtained its identifier on a
registry whose map exists. -/
theorem Element_SetCallback_run {W V E : Type} (setBinding : E → String → Nat → Int) (elem : E)
    (cbName : String) (cbFunc : Option (Handler W V)) (cbArgs : List V) (b : Bridge W V)
    (m : Nat → Option (callback W V)) (bindID : Nat) (p1 : Pool)
    (hm : b.disp.bindingCallbacks = some m)
    (hc : GetUniqueCallbackBindID b.pool = some (bindID, p1)) :
    Element_SetCallback setBinding elem cbName cbFunc cbArgs b = some (Except.ok
      { bindID := bindID
        atArm := { b with pool := p1 }
        e := if setBinding elem cbName bindID ≠ 0 then
            some "`NEUIK_Element_SetBindingCallback()` Failed; call `neuik.BacktraceErrors()` for details."
          else none
        final :=
          { pool := p1
            disp :=
              { b.disp with
                bindingCallbacks :=
                  some (fun k => if k = bindID then
                      some { isUsed := true, cbFunc := cbFunc, cbArgs := cbArgs }
                    else m k) } } }) := by
  simp only [Element_SetCallback, hc, copyArgs_eq,
    register_ok b.disp m bindID cbFunc cbArgs hm]

/-- What `Window.SetCallback` does once it has obtained its identifier on a
registry whose map exists. -/
theorem Window_SetCallback_run {W V E : Type} (setBinding : E → String → Nat → Int) (win : E)
    (cbName : String) (cbFunc : Option (Handler W V)) (cbArgs : List V) (b : Bridge W V)
    (m : Nat → Option (callback W V)) (bindID : Nat) (p1 : Pool)
    (hm : b.disp.bindingCallbacks = some m)
    (hc : GetUniqueCallbackBindID b.pool = some (bindID, p1)) :
    Window.SetCallback setBinding win cbName cbFunc cbArgs b = some (Except.ok
      { bindID := bindID
        atArm := { b with pool := p1 }
        e := if setBinding win cbName bindID ≠ 0 then
            some "`NEUIK_Window_SetBindingCallback()` Failed; call `neuik.BacktraceErrors()` for details."
          else none
        final :=
          { pool := p1
            disp :=
              { b.disp with
                bindingCallbacks :=
                  some (fun k => if k = bindID then
                      some { isUsed := true, cbFunc := cbFunc, cbArgs := cbArgs }
                    else m k) } } }) := by
  simp only [Window.SetCallback, hc, copyArgs_eq,
    register_ok b.disp m bindID cbFunc cbArgs hm]

/-- C11: when `Element_SetCallback` or `Window.SetCallback`, called while
`StartCallbackHandler` is running, has obtained the identifier `bindID`, it
returns; the error it returns is non-nil exactly when the foreign
`SetBindingCallback` call reported failure (a non-zero result), and in both
cases the registry then holds for `bindID` the entry with the given handler
and arguments. -/
theorem arming_failure_surfaced {W V E1 E2 : Type}
    (elemSetBinding : E1 → String → Nat → Int) (winSetBinding : E2 → String → Nat → Int)
    (elem : E1) (win : E2) (cbName : String) (cbFunc : Option (Handler W V))
    (cbArgs : List V) (b : Bridge W V) (bindID : Nat) (p1 : Pool)
    (hb : BridgeReachable b) (hc : GetUniqueCallbackBindID b.pool = some (bindID, p1)) :
    (∃ r, Element_SetCallback elemSetBinding elem cbName cbFunc cbArgs b = some (Except.ok r) ∧
      r.bindID = bindID ∧
      r.e.isSome = decide (elemSetBinding elem cbName bindID ≠ 0) ∧
      entry r.final.disp bindID
        = some { isUsed := true, cbFunc := cbFunc, cbArgs := cbArgs }) ∧
    (∃ r, Window.SetCallback winSetBinding win cbName cbFunc cbArgs b = some (Except.ok r) ∧
      r.bindID = bindID ∧
      r.e.isSome = decide (winSetBinding win cbName bindID ≠ 0) ∧
      entry r.final.disp bindID
        = some { isUsed := true, cbFunc := cbFunc, cbArgs := cbArgs }) := by
  obtain ⟨m, hm⟩ := reachable_map_made b hb
  constructor
  · refine ⟨_, Element_SetCallback_run elemSetBinding elem cbName cbFunc cbArgs b m bindID p1
      hm hc, rfl, ?_, ?_⟩
    · by_cases hz : elemSetBinding elem cbName bindID ≠ 0 <;> simp [hz]
    · simp [entry]
  · refine ⟨_, Window_SetCallback_run winSetBinding win cbName cbFunc cbArgs b m bindID p1
      hm hc, rfl, ?_, ?_⟩
    · by_cases hz : winSetBinding win cbName bindID ≠ 0 <;> simp [hz]
    · simp [entry]

theorem arming_failure_surfaced_witness :
    (BridgeReachable (startBridge Value (0 : Nat)) ∧
     GetUniqueCallbackBindID (startBridge Value (0 : Nat)).pool
       = some (0, ⟨5, 4, [1, 2, 3, 4], [true]⟩)) ∧
    ((∃ r, Element_SetCallback (fun (_ : Unit) _ _ => 1) () "OnClick"
          (some (fun _ w => returning (w + 1))) [Value.str "x", Value.int 42]
          (startBridge Value (0 : Nat)) = some (Except.ok r) ∧
       r.bindID = 0 ∧
       r.e.isSome = decide ((fun (_ : Unit) (_ : String) (_ : Nat) => (1 : Int)) () "OnClick" 0 ≠ 0) ∧
       entry r.final.disp 0
         = some { isUsed := true, cbFunc := some (fun _ w => returning (w + 1)),
                  cbArgs := [Value.str "x", Value.int 42] }) ∧
     (∃ r, Window.SetCallback (fun (_ : Unit) _ _ => 0) () "OnClick"
          (some (fun _ w => returning (w + 1))) [Value.str "x", Value.int 42]
          (startBridge Value (0 : Nat)) = some (Except.ok r) ∧
       r.bindID = 0 ∧
       r.e.isSome = decide ((fun (_ : Unit) (_ : String) (_ : Nat) => (0 : Int)) () "OnClick" 0 ≠ 0) ∧
       entry r.final.disp 0
         = some { isUsed := true, cbFunc := some (fun _ w => returning (w + 1)),
                  cbArgs := [Value.str "x", Value.int 42] })) :=
  ⟨⟨⟨0, [], rfl⟩, by decide⟩,
   arming_failure_surfaced (fun (_ : Unit) _ _ => 1) (fun (_ : Unit) _ _ => 0) () () "OnClick"
     (some (fun _ w => returning (w + 1))) [Value.str "x", Value.int 42]
     (startBridge Value (0 : Nat)) 0 ⟨5, 4, [1, 2, 3, 4], [true]⟩ ⟨0, [], rfl⟩ (by decide)⟩

/-- C12 (amended): `Element_SetCallback` and `Window.SetCallback` perform
their three effects in the order allocate, arm, register: at the moment the
foreign `SetBindingCallback` is called the identifier has been taken from the
pool and the registry is still as it was before the call; the entry for the
identifier is written only after the foreign call has returned. -/
theorem bind_order_allocate_arm_register {W V E1 E2 : Type}
    (elemSetBinding : E1 → String → Nat → Int) (winSetBinding : E2 → String → Nat → Int)
    (elem : E1) (win : E2) (cbName : String) (cbFunc : Option (Handler W V))
    (cbArgs : List V) (b : Bridge W V) (bindID : Nat) (p1 : Pool)
    (hb : BridgeReachable b) (hc : GetUniqueCallbackBindID b.pool = some (bindID, p1)) :
    (∃ r, Element_SetCallback elemSetBinding elem cbName cbFunc cbArgs b = some (Except.ok r) ∧
      r.atArm.pool = p1 ∧ r.atArm.disp = b.disp ∧ r.final.pool = p1 ∧
      entry r.final.disp bindID
        = some { isUsed := true, cbFunc := cbFunc, cbArgs := cbArgs }) ∧
    (∃ r, Window.SetCallback winSetBinding win cbName cbFunc cbArgs b = some (Except.ok r) ∧
      r.atArm.pool = p1 ∧ r.atArm.disp = b.disp ∧ r.final.pool = p1 ∧
      entry r.final.disp bindID
        = some { isUsed := true, cbFunc := cbFunc, cbArgs := cbArgs }) := by
  obtain ⟨m, hm⟩ := reachable_map_made b hb
  constructor
  · refine ⟨_, Element_SetCallback_run elemSetBinding elem cbName cbFunc cbArgs b m bindID p1
      hm hc, rfl, rfl, rfl, ?_⟩
    simp [entry]
  · refine ⟨_, Window_SetCallback_run winSetBinding win cbName cbFunc cbArgs b m bindID p1
      hm hc, rfl, rfl, rfl, ?_⟩
    simp [entry]

theorem bind_order_allocate_arm_register_witness :
    (BridgeReachable (startBridge Value (0 : Nat)) ∧
     GetUniqueCallbackBindID (startBridge Value (0 : Nat)).pool
       = some (0, ⟨5, 4, [1, 2, 3, 4], [true]⟩)) ∧
    ((∃ r, Element_SetCallback (fun (_ : Unit) _ _ => 0) () "OnClick"
          (some (fun _ w => returning (w + 1))) [Value.int 42]
          (startBridge Value (0 : Nat)) = some (Except.ok r) ∧
       r.atArm.pool = ⟨5, 4, [1, 2, 3, 4], [true]⟩ ∧
       r.atArm.disp = (startBridge Value (0 : Nat)).disp ∧
       r.final.pool = ⟨5, 4, [1, 2, 3, 4], [true]⟩ ∧
       entry r.final.disp 0
         = some { isUsed := true, cbFunc := some (fun _ w => returning (w + 1)),
                  cbArgs := [Value.int 42] }) ∧
     (∃ r, Window.SetCallback (fun (_ : Unit) _ _ => 0) () "OnClick"
          (some (fun _ w => returning (w + 1))) [Value.int 42]
          (startBridge Value (0 : Nat)) = some (Except.ok r) ∧
       r.atArm.pool = ⟨5, 4, [1, 2, 3, 4], [true]⟩ ∧
       r.atArm.disp = (startBridge Value (0 : Nat)).disp ∧
       r.final.pool = ⟨5, 4, [1, 2, 3, 4], [true]⟩ ∧
       entry r.final.disp 0
         = some { isUsed := true, cbFunc := some (fun _ w => returning (w + 1)),
                  cbArgs := [Value.int 42] })) :=
  ⟨⟨⟨0, [], rfl⟩, by decide⟩,
   bind_order_allocate_arm_register (fun (_ : Unit) _ _ => 0) (fun (_ : Unit) _ _ => 0) () ()
     "OnClick" (some (fun _ w => returning (w + 1))) [Value.int 42]
     (startBridge Value (0 : Nat)) 0 ⟨5, 4, [1, 2, 3, 4], [true]⟩ ⟨0, [], rfl⟩ (by decide)⟩

/-- C12 (as stated) fails: on the freshly started package `Element_SetCallback`
and `Window.SetCallback` obtain the identifier 0, and at the moment the
foreign `SetBindingCallback` is called the registry holds no entry for 0; the
entry is there only on return. -/
theorem foreign_call_precedes_registration :
    (∃ r, Element_SetCallback (fun (_ : Unit) _ _ => 0) () "OnClick"
        (some (fun _ w => returning (w + 1))) [Value.int 42]
        (startBridge Value (0 : Nat)) = some (Except.ok r) ∧
      r.bindID = 0 ∧ entry r.atArm.disp 0 = none ∧
      (entry r.final.disp 0).isSome = true) ∧
    (∃ r, Window.SetCallback (fun (_ : Unit) _ _ => 0) () "OnClick"
        (some (fun _ w => returning (w + 1))) [Value.int 42]
        (startBridge Value (0 : Nat)) = some (Except.ok r) ∧
      r.bindID = 0 ∧ entry r.atArm.disp 0 = none ∧
      (entry r.final.disp 0).isSome = true) :=
  ⟨⟨_, rfl, rfl, rfl, rfl⟩, ⟨_, rfl, rfl, rfl, rfl⟩⟩

/-! ## Claims about the order of delivery and about failing handlers -/

/-- C13 (amended): for every registry and every list of fired identifiers
`[i1, ..., in]` each of which is registered with a handler that, whenever it
is called with its registered arguments, returns normally, leaves its
argument slice as it was and registers no callback for an identifier of the
list, the loop handles them all and the handler calls it makes are exactly
`[(H(i1), args(i1)), ..., (H(in), args(in))]`, in that order. -/
theorem ordering_preserved {W V : Type} (Hf : Nat → Handler W V) (af : Nat → List V)
    (ids : List Nat) (d : Dispatch W V)
    (hreg : ∀ i ∈ ids, ∃ u,
      entry d i = some { isUsed := u, cbFunc := some (Hf i), cbArgs := af i })
    (hret : ∀ i ∈ ids, ∀ w, ∃ eff, Hf i (af i) w = some eff ∧
      writeArgs eff.argWrites (af i) = af i ∧ ∀ r ∈ eff.registers, r.1 ∉ ids) :
    ∃ d2, dispatchAll ids d = Except.ok d2 ∧
      d2.calls = d.calls ++ ids.map (fun i => (Hf i, af i)) ∧
      ∀ i ∈ ids, entry d2 i = entry d i :=
  dispatchAll_quiet ids Hf af hret ids d (fun _ h => h) hreg

theorem ordering_preserved_witness :
    ((∀ i ∈ [2, 1, 3], ∃ u, entry allRegistered i
          = some { isUsed := u, cbFunc := some (addingHandler i), cbArgs := [Value.int i] }) ∧
     (∀ i ∈ [2, 1, 3], ∀ w : Nat, ∃ eff, addingHandler i [Value.int i] w = some eff ∧
        writeArgs eff.argWrites [Value.int (i : Nat)] = [Value.int (i : Nat)] ∧
        ∀ r ∈ eff.registers, r.1 ∉ [2, 1, 3])) ∧
    ∃ d2, dispatchAll [2, 1, 3] allRegistered = Except.ok d2 ∧
      d2.calls = allRegistered.calls ++ [2, 1, 3].map
        (fun i => (addingHandler i, [Value.int (i : Nat)])) ∧
      ∀ i ∈ [2, 1, 3], entry d2 i = entry allRegistered i :=
  ⟨⟨fun _ _ => ⟨true, rfl⟩, fun _ _ _ => ⟨_, rfl, rfl, fun _ hr => by cases hr⟩⟩,
   ordering_preserved addingHandler (fun i => [Value.int i]) [2, 1, 3] allRegistered
     (fun _ _ => ⟨true, rfl⟩) (fun _ _ _ => ⟨_, rfl, rfl, fun _ hr => by cases hr⟩)⟩

/-- C13 (as stated) fails, in three ways.  With 1 and 2 registered and the
notifications `[1, 2]`: when the handler of 1 panics there is one handler call
only, the call for 2 being omitted because the panic ended the loop; when the
handler of 1 returns after
`RegisterBindingCallback(2, countingHandler, ["x", 42])`, the call made for 2
is that of `countingHandler` with `["x", 42]`, not that of the handler and
arguments the registry held for 2.  With 1 registered with the arguments
`["x", 42]` and a handler that returns after the assignment `a[0] = "y"`, the
notifications `[1, 1]` lead to a second call with `["y", 42]`. -/
theorem trace_differs_from_registry :
    (∃ d1 d2 d3,
      RegisterBindingCallback 1 (some (fun _ _ => none)) [Value.int 1]
          (startDispatch (freshDispatch Value (0 : Nat))) = Except.ok d1 ∧
      RegisterBindingCallback 2 (some countingHandler) [Value.int 2] d1
          = Except.ok d2 ∧
      (entry d2 1).isSome = true ∧ (entry d2 2).isSome = true ∧
      dispatchAll [1, 2] d2 = Except.error (Panic.handlerPanic, d3) ∧
      d3.calls.length = 1) ∧
    (∃ d1 d2 d3,
      RegisterBindingCallback 1 (some registeringTwoHandler) [Value.int 1]
          (startDispatch (freshDispatch Value (0 : Nat))) = Except.ok d1 ∧
      RegisterBindingCallback 2 (some (addingHandler 5)) [Value.int 2] d1
          = Except.ok d2 ∧
      (entry d2 2).map (fun cb => cb.cbArgs) = some [Value.int 2] ∧
      dispatchAll [1, 2] d2 = Except.ok d3 ∧
      d3.calls = [(registeringTwoHandler, [Value.int 1]),
                  (countingHandler, [Value.str "x", Value.int 42])] ∧
      d3.world = 1) ∧
    (∃ d1 d2,
      RegisterBindingCallback 1 (some argWritingHandler) [Value.str "x", Value.int 42]
          (startDispatch (freshDispatch Value (0 : Nat))) = Except.ok d1 ∧
      (entry d1 1).map (fun cb => cb.cbArgs) = some [Value.str "x", Value.int 42] ∧
      dispatchAll [1, 1] d1 = Except.ok d2 ∧
      d2.calls = [(argWritingHandler, [Value.str "x", Value.int 42]),
                  (argWritingHandler, [Value.str "y", Value.int 42])]) :=
  ⟨⟨_, _, _, rfl, rfl, rfl, rfl, rfl, rfl⟩, ⟨_, _, _, rfl, rfl, rfl, rfl, rfl, rfl⟩,
   ⟨_, _, rfl, rfl, rfl, rfl⟩⟩

/-- C14 (amended): if a registered handler panics while it is triggered for a
fired notification, the panic is not recovered: it ends the dispatch loop at
that notification, after the one call of the handler, and the notifications
that follow are not delivered. -/
theorem handler_panic_ends_loop {W V : Type} (d : Dispatch W V) (id : Nat) (u : Bool)
    (H : Handler W V) (args : List V) (rest : List Nat)
    (he : entry d id = some { isUsed := u, cbFunc := some H, cbArgs := args })
    (hp : H args d.world = none) :
    dispatchAll (id :: rest) d = Except.error (Panic.handlerPanic,
      { d with bindID := id, calls := d.calls ++ [(H, args)] }) := by
  have hf := fired_registered d id u H args he
  rw [hp] at hf
  simp only [dispatchAll, hf]

theorem handler_panic_ends_loop_witness :
    (entry ({ bindingCallbacks := some (fun _ =>
                some { isUsed := true, cbFunc := some (fun _ _ => none), cbArgs := [Value.int 1] }),
              stackPop := [], bindID := 0, world := 0, calls := [] } : Dispatch Nat Value) 4
        = some { isUsed := true, cbFunc := some (fun _ _ => none), cbArgs := [Value.int 1] } ∧
     ((fun _ _ => none) : Handler Nat Value) [Value.int 1] 0 = none) ∧
    dispatchAll (4 :: [9, 9])
        ({ bindingCallbacks := some (fun _ =>
              some { isUsed := true, cbFunc := some (fun _ _ => none), cbArgs := [Value.int 1] }),
           stackPop := [], bindID := 0, world := 0, calls := [] } : Dispatch Nat Value)
      = Except.error (Panic.handlerPanic,
          { bindingCallbacks := some (fun _ =>
              some { isUsed := true, cbFunc := some (fun _ _ => none), cbArgs := [Value.int 1] }),
            stackPop := [], bindID := 4, world := 0,
            calls := [] ++ [((fun _ _ => none), [Value.int 1])] }) :=
  ⟨⟨rfl, rfl⟩,
   handler_panic_ends_loop
     { bindingCallbacks := some (fun _ =>
         some { isUsed := true, cbFunc := some (fun _ _ => none), cbArgs := [Value.int 1] }),
       stackPop := [], bindID := 0, world := 0, calls := [] }
     4 true (fun _ _ => none) [Value.int 1] [9, 9] rfl rfl⟩

/-- C14 (as stated) fails: with a panicking handler registered for 4 and a
handler that adds one to the application state registered for 9, the
notifications `[4, 9]` end the loop with a panic at 4; the handler of 9 is
never run and the application state is still 0. -/
theorem handler_panic_not_isolated :
    ∃ d1 d2 d3,
      RegisterBindingCallback 4 (some (fun _ _ => none)) [Value.str "x"]
          (startDispatch (freshDispatch Value (0 : Nat))) = Except.ok d1 ∧
      RegisterBindingCallback 9 (some (fun _ w => returning (w + 1))) [Value.str "y"] d1
          = Except.ok d2 ∧
      dispatchAll [4, 9] d2 = Except.error (Panic.handlerPanic, d3) ∧
      d3.calls.length = 1 ∧ d3.world = 0 ∧ d3.bindID = 4 :=
  ⟨_, _, _, rfl, rfl, rfl, rfl, rfl, rfl⟩

/-! ## Claims about who touches the registry -/

/-- C15 (amended): `RegisterBindingCallback` touches the map directly.  Called
at any moment after `StartCallbackHandler` has reached its loop, the call by
itself makes the assignment: when it returns the map holds the new entry, all
other entries are as before, and nothing has been sent on a channel (the pool
and `stackPop` are untouched), so no step of the dispatch loop is involved and
the registration is not serialised through the loop. -/
theorem register_writes_map_directly {W V : Type} (b : Bridge W V) (bindID : Nat)
    (cbFunc : Option (Handler W V)) (cbArgs : List V) (hb : BridgeReachable b) :
    ∃ d1, RegisterBindingCallback bindID cbFunc cbArgs b.disp = Except.ok d1 ∧
      stepBridge (BridgeStep.register bindID cbFunc cbArgs) b
        = some { pool := b.pool, disp := d1 } ∧
      (∀ k, entry d1 k =
        if k = bindID then some { isUsed := true, cbFunc := cbFunc, cbArgs := cbArgs }
        else entry b.disp k) ∧
      d1.stackPop = b.disp.stackPop ∧ d1.bindID = b.disp.bindID ∧
      d1.world = b.disp.world ∧ d1.calls = b.disp.calls := by
  obtain ⟨m, hm⟩ := reachable_map_made b hb
  have hreg := register_ok b.disp m bindID cbFunc cbArgs hm
  refine ⟨_, hreg, ?_, ?_, rfl, rfl, rfl, rfl⟩
  · simp only [stepBridge, hreg]
  · intro k
    by_cases hk : k = bindID <;> simp [entry, hm, hk]

theorem register_writes_map_directly_witness :
    BridgeReachable (startBridge Value (0 : Nat)) ∧
    ∃ d1, RegisterBindingCallback 7 (some countingHandler) [Value.int 42]
        (startBridge Value (0 : Nat)).disp = Except.ok d1 ∧
      stepBridge (BridgeStep.register 7 (some countingHandler) [Value.int 42])
          (startBridge Value (0 : Nat))
        = some { pool := (startBridge Value (0 : Nat)).pool, disp := d1 } ∧
      (∀ k, entry d1 k =
        if k = 7 then
          some { isUsed := true, cbFunc := some countingHandler, cbArgs := [Value.int 42] }
        else entry (startBridge Value (0 : Nat)).disp k) ∧
      d1.stackPop = (startBridge Value (0 : Nat)).disp.stackPop ∧
      d1.bindID = (startBridge Value (0 : Nat)).disp.bindID ∧
      d1.world = (startBridge Value (0 : Nat)).disp.world ∧
      d1.calls = (startBridge Value (0 : Nat)).disp.calls :=
  ⟨⟨0, [], rfl⟩,
   register_writes_map_directly (startBridge Value (0 : Nat)) 7 (some countingHandler)
     [Value.int 42] ⟨0, [], rfl⟩⟩

/-- C15 (as stated) fails: on the freshly started package, where the map holds
no entry for 7, the call `RegisterBindingCallback(7, countingHandler, [42])`
returns with the entry for 7 in the map; the pool and `stackPop` are as
before, so nothing was handed to the loop and no step of the loop took
place. -/
theorem register_not_serialised_through_loop :
    entry (startBridge Value (0 : Nat)).disp 7 = none ∧
    stepBridge (BridgeStep.register 7 (some countingHandler) [Value.int 42])
        (startBridge Value (0 : Nat)) = some sevenRegistered ∧
    entry sevenRegistered.disp 7
      = some { isUsed := true, cbFunc := some countingHandler, cbArgs := [Value.int 42] } ∧
    sevenRegistered.pool = (startBridge Value (0 : Nat)).pool ∧
    sevenRegistered.disp.stackPop = (startBridge Value (0 : Nat)).disp.stackPop :=
  ⟨rfl, rfl, rfl, rfl, rfl⟩

end Neuik
